import Mathlib

/-!
# sensorbee/opencv: raw image data model, conversions and source construction

A shallow embedding of `raw_data.go`, `cascade_classifier.go`,
`capture_from_device.go` and `capture_from_uri.go`.

Conventions of the embedding:

* Go `int` and `int64` are mathematical integers; the conversion `int(x)` of an
  `int64` is `wrapInt64` (Go `int` is taken to be 64 bits wide).
* A Go function returning `(T, error)` returns `Except Error T`; the idiom
  `x, err := f(); if err != nil { return nil, err }` is `let x ← f()`.
* A run-time panic (index out of range, `image.NewRGBA` on a rectangle whose
  pixel buffer does not fit in an `int`) is a value of `Panic`.
* The type parameter `β` is the representation of a byte slice `[]byte`: the
  list of its bytes where only the contents matter, the address of a buffer in
  an explicit heap where aliasing matters.
-/

namespace Opencv

deriving instance DecidableEq for Except

/-- One byte (`uint8`). -/
abbrev Byte := Fin 256

/-- Errors returned by the package and by the host `data` package. -/
inductive Error where
  /-- `data.Map.Get` on a key the map does not hold. -/
  | keyNotFound (key : String)
  /-- A failed `data.AsXxx` / `data.ToXxx` conversion to the named type. -/
  | castError (target : String)
  /-- An error built with `fmt.Errorf`, carrying its message. -/
  | msg (text : String)
  /-- The shared-state registry holds no state of the given name. -/
  | stateNotFound (name : String)
  deriving DecidableEq, Repr

/-- Run-time panics of the Go code. -/
inductive Panic where
  /-- An index expression `s[i]` with `i` not below `len(s)`. -/
  | indexOutOfRange (index len : Nat)
  /-- The loop model was given too little fuel (never the case for `ToJpegData`). -/
  | outOfFuel
  /-- The panic of `image.NewRGBA`: "image: NewRGBA Rectangle has huge or negative
  dimensions". -/
  | hugeOrNegativeDimensions
  deriving DecidableEq, Repr

/-- The host engine's `data.Value`: a dynamically typed value. A float is carried
as its bit pattern and a timestamp as an integer; neither is inspected here. -/
inductive Value (β : Type) where
  | null
  | bool (b : Bool)
  | int (n : Int)
  | float (bits : Nat)
  | string (s : String)
  | blob (b : β)
  | timestamp (t : Int)
  | array (vs : List (Value β))
  | map (kvs : List (String × Value β))

/-- The host engine's `data.Map`: a finite map from keys to values, kept as an
association list read by first match. -/
abbrev Map (β : Type) := List (String × Value β)

/-- The host engine's `data.Array`. -/
abbrev Array (β : Type) := List (Value β)

/-- `data.Map.Get` for a path that is a single key: the value under the key, or an
error when the key is absent. -/
def Map.Get {β : Type} (m : Map β) (key : String) : Except Error (Value β) :=
  match List.lookup key m with
  | some v => .ok v
  | none => .error (.keyNotFound key)

/-- `data.AsString`: succeeds exactly on a value of type String. -/
def AsString {β : Type} : Value β → Except Error String
  | .string s => .ok s
  | _ => .error (.castError "string")

/-- `data.AsInt`: succeeds exactly on a value of type Int. -/
def AsInt {β : Type} : Value β → Except Error Int
  | .int n => .ok n
  | _ => .error (.castError "int")

/-- `data.AsBool`: succeeds exactly on a value of type Bool. -/
def AsBool {β : Type} : Value β → Except Error Bool
  | .bool b => .ok b
  | _ => .error (.castError "bool")

/-- `data.AsMap`: succeeds exactly on a value of type Map. -/
def AsMap {β : Type} : Value β → Except Error (Map β)
  | .map kvs => .ok kvs
  | _ => .error (.castError "map")

/-- The coercions of the host `data` package on values that are not already of
the target type (parsing a string, truncating a float, decoding a string into
bytes, ...). They belong to the host engine and are left open. -/
structure Coercions (β : Type) where
  /-- `data.ToInt` on a value that is not of type Int. -/
  toIntOther : Value β → Except Error Int
  /-- `data.ToBlob` on a value that is not of type Blob. -/
  toBlobOther : Value β → Except Error β

/-- `data.ToInt`: an Int converts to itself, other values by the host's rules. -/
def ToInt {β : Type} (c : Coercions β) : Value β → Except Error Int
  | .int n => .ok n
  | v => c.toIntOther v

/-- `data.ToBlob`: a Blob converts to itself, other values by the host's rules. -/
def ToBlob {β : Type} (c : Coercions β) : Value β → Except Error β
  | .blob b => .ok b
  | v => c.toBlobOther v

/-- A coercion table that refuses every value not already of the target type. -/
def strictCoercions (β : Type) : Coercions β where
  toIntOther := fun _ => .error (.castError "int")
  toBlobOther := fun _ => .error (.castError "blob")

/-- The Go conversion `int(x)` of an `int64`, with `int` 64 bits wide. -/
def wrapInt64 (n : Int) : Int := (n + 2 ^ 63) % 2 ^ 64 - 2 ^ 63

/-- The values a Go `int` can hold. -/
def inIntRange (n : Int) : Prop := -(2 ^ 63) ≤ n ∧ n < 2 ^ 63

instance (n : Int) : Decidable (inIntRange n) := by
  unfold inIntRange; infer_instance

/-! ## raw_data.go -/

/-- `TypeImageFormat` is an ID of image format type (a Go `int`). -/
structure TypeImageFormat where
  val : Int
  deriving DecidableEq, Repr

def typeUnknownFormat : TypeImageFormat := ⟨0⟩
/-- `TypeCVMAT` is OpenCV `cv::Mat_<cv::Vec3b>` format. -/
def TypeCVMAT : TypeImageFormat := ⟨1⟩
/-- `TypeCVMAT4b` is OpenCV `cv::Mat_<cv::Vec4b>` format. -/
def TypeCVMAT4b : TypeImageFormat := ⟨2⟩
/-- `TypeJPEG` is JPEG format. -/
def TypeJPEG : TypeImageFormat := ⟨3⟩

def TypeImageFormat.String (t : TypeImageFormat) : String :=
  if t = TypeCVMAT then "cvmat"
  else if t = TypeCVMAT4b then "cvmat4b"
  else if t = TypeJPEG then "jpeg"
  else "unknown"

/-- `GetTypeImageFormat` returns image format type. -/
def GetTypeImageFormat (str : String) : TypeImageFormat :=
  if str = "cvmat" then TypeCVMAT
  else if str = "cvmat4b" then TypeCVMAT4b
  else if str = "jpeg" then TypeJPEG
  else typeUnknownFormat

/-- `RawData` is represented of `cv::Mat_<cv::Vec3b>` structure. -/
structure RawData (β : Type) where
  Format : TypeImageFormat
  Width : Int
  Height : Int
  Data : β
  deriving DecidableEq, Repr

def widthPath : String := "width"
def heightPath : String := "height"
def imagePath : String := "image"
def formatPath : String := "format"

/-- `ConvertMapToRawData` returns RawData from `data.Map`. -/
def ConvertMapToRawData {β : Type} (c : Coercions β) (dm : Map β) :
    Except Error (RawData β) :=
  match dm.Get widthPath with
  | .error err => .error err
  | .ok w =>
  match ToInt c w with
  | .error err => .error err
  | .ok width =>
  match dm.Get heightPath with
  | .error err => .error err
  | .ok h =>
  match ToInt c h with
  | .error err => .error err
  | .ok height =>
  match dm.Get imagePath with
  | .error err => .error err
  | .ok b =>
  match ToBlob c b with
  | .error err => .error err
  | .ok img =>
  match dm.Get formatPath with
  | .error err => .error err
  | .ok f =>
  match AsString f with
  | .error err => .error err
  | .ok fmtStr =>
    let format := GetTypeImageFormat fmtStr
    if format = typeUnknownFormat then
      .error (.msg ("\x27" ++ fmtStr ++ "\x27 is not supported"))
    else
      .ok { Format := format, Width := wrapInt64 width, Height := wrapInt64 height,
            Data := img }

/-- `ConvertToDataMap` returns `data.Map`. -/
def RawData.ConvertToDataMap {β : Type} (r : RawData β) : Map β :=
  [ ("format", .string r.Format.String),
    ("width", .int r.Width),
    ("height", .int r.Height),
    ("image", .blob r.Data) ]

/-- `ToMatVec3b` converts RawData to MatVec3b. The native constructor
`bridge.ToMatVec3b` is the parameter `toMat`. -/
def RawData.ToMatVec3b {β μ : Type} (toMat : Int → Int → β → μ) (r : RawData β) :
    Except Error μ :=
  if r.Format ≠ TypeCVMAT then
    .error (.msg ("\x27" ++ r.Format.String ++ "\x27 cannot convert to \x27MatVec3b\x27"))
  else
    .ok (toMat r.Width r.Height r.Data)

/-! ### `image.Rect`, `image.NewRGBA` (Go standard library) -/

/-- `image.Rectangle`: the points with `MinX ≤ x < MaxX` and `MinY ≤ y < MaxY`. -/
structure image.Rectangle where
  MinX : Int
  MinY : Int
  MaxX : Int
  MaxY : Int
  deriving DecidableEq, Repr

/-- `image.Rect(x0, y0, x1, y1)`: the coordinates are swapped where necessary so
that the rectangle is well formed. -/
def image.Rect (x0 y0 x1 y1 : Int) : image.Rectangle :=
  { MinX := if x0 > x1 then x1 else x0,
    MinY := if y0 > y1 then y1 else y0,
    MaxX := if x0 > x1 then x0 else x1,
    MaxY := if y0 > y1 then y0 else y1 }

/-- `Rectangle.Dx`: the width `Max.X - Min.X`, in `int` arithmetic. -/
def image.Rectangle.Dx (r : image.Rectangle) : Int := wrapInt64 (r.MaxX - r.MinX)
/-- `Rectangle.Dy`: the height `Max.Y - Min.Y`, in `int` arithmetic. -/
def image.Rectangle.Dy (r : image.Rectangle) : Int := wrapInt64 (r.MaxY - r.MinY)

/-- `image.RGBA`: `Pix` holds the pixels in R, G, B, A order. -/
structure image.RGBA where
  Pix : List Byte
  Stride : Int
  Rect : image.Rectangle
  deriving DecidableEq, Repr

/-- `mul3NonNeg(x, y, z)`: the product `x * y * z`, unless an argument is negative
or the computation overflows `int`, in which case it is -1. Each `bits.Mul64` gives
the high and the low 64 bits of a product. -/
def image.mul3NonNeg (x y z : Int) : Int :=
  if x < 0 ∨ y < 0 ∨ z < 0 then -1
  else
    let hi := x * y / 2 ^ 64
    let lo := x * y % 2 ^ 64
    if hi ≠ 0 then -1
    else
      let hi := lo * z / 2 ^ 64
      let lo := lo * z % 2 ^ 64
      if hi ≠ 0 then -1
      else
        let a := wrapInt64 lo
        if a < 0 then -1 else a

/-- `pixelBufferLength(bytesPerPixel, r, "RGBA")`: the length of the pixel buffer,
or the panic of a rectangle with huge or negative dimensions. -/
def image.pixelBufferLength (bytesPerPixel : Int) (r : image.Rectangle) : Except Panic Int :=
  let totalLength := image.mul3NonNeg bytesPerPixel r.Dx r.Dy
  if totalLength < 0 then .error .hugeOrNegativeDimensions else .ok totalLength

/-- `image.NewRGBA(r)`: a zeroed pixel buffer of `pixelBufferLength(4, r, "RGBA")`
bytes, with `Stride = 4 * r.Dx()` in `int` arithmetic. It panics when a dimension
is negative or the length overflows `int`; the allocation of a length that fits is
taken to succeed. -/
def image.NewRGBA (r : image.Rectangle) : Except Panic image.RGBA :=
  match image.pixelBufferLength 4 r with
  | .error p => .error p
  | .ok n =>
    .ok { Pix := List.replicate n.toNat 0,
          Stride := wrapInt64 (4 * r.Dx),
          Rect := r }

/-- The index expression `s[i]` read: a panic when `i` is out of range. -/
def readAt (s : List Byte) (i : Nat) : Except Panic Byte :=
  match s[i]? with
  | some b => .ok b
  | none => .error (.indexOutOfRange i s.length)

/-- The assignment `s[i] = b`: a panic when `i` is out of range. -/
def writeAt (s : List Byte) (i : Nat) (b : Byte) : Except Panic (List Byte) :=
  if i < s.length then .ok (s.set i b) else .error (.indexOutOfRange i s.length)

/-- The loop of the `TypeCVMAT` branch of `ToJpegData`,
`for i, j := 0, 0; i < len(rgba.Pix); i, j = i+4, j+3`, run from `(i, j)`. -/
def cvmatLoop (data : List Byte) : Nat → Nat → Nat → List Byte → Except Panic (List Byte)
  | 0, i, _, pix => if i < pix.length then .error .outOfFuel else .ok pix
  | fuel + 1, i, j, pix =>
    if i < pix.length then do
      let d2 ← readAt data (j + 2)
      let pix ← writeAt pix (i + 0) d2
      let d1 ← readAt data (j + 1)
      let pix ← writeAt pix (i + 1) d1
      let d0 ← readAt data (j + 0)
      let pix ← writeAt pix (i + 2) d0
      let pix ← writeAt pix (i + 3) 0xFF
      cvmatLoop data fuel (i + 4) (j + 3) pix
    else .ok pix

/-- The loop of the `TypeCVMAT4b` branch of `ToJpegData`,
`for i, j := 0, 0; i < len(rgba.Pix); i, j = i+4, j+3`, run from `(i, j)`. -/
def cvmat4bLoop (data : List Byte) : Nat → Nat → Nat → List Byte → Except Panic (List Byte)
  | 0, i, _, pix => if i < pix.length then .error .outOfFuel else .ok pix
  | fuel + 1, i, j, pix =>
    if i < pix.length then do
      let d2 ← readAt data (j + 2)
      let pix ← writeAt pix (i + 0) d2
      let d1 ← readAt data (j + 1)
      let pix ← writeAt pix (i + 1) d1
      let d0 ← readAt data (j + 0)
      let pix ← writeAt pix (i + 2) d0
      let d3 ← readAt data (j + 3)
      let pix ← writeAt pix (i + 3) d3
      cvmat4bLoop data fuel (i + 4) (j + 3) pix
    else .ok pix

/-- `ToJpegData` convert JPGE format image bytes. The encoder `jpeg.Encode` with
its output buffer is the parameter `encode`: from the image and the quality to
the bytes written and the error returned. -/
def RawData.ToJpegData (encode : image.RGBA → Int → List Byte × Option Error)
    (r : RawData (List Byte)) (quality : Int) :
    Except Panic (List Byte × Option Error) :=
  if r.Format = TypeJPEG then
    .ok (r.Data, none)
  else
    -- BGR to RGB
    match image.NewRGBA (image.Rect 0 0 r.Width r.Height) with
    | .error p => .error p
    | .ok rgba =>
      if r.Format = TypeCVMAT then do
        let pix ← cvmatLoop r.Data rgba.Pix.length 0 0 rgba.Pix
        .ok (encode { rgba with Pix := pix } quality)
      else if r.Format = TypeCVMAT4b then do
        let pix ← cvmat4bLoop r.Data rgba.Pix.length 0 0 rgba.Pix
        .ok (encode { rgba with Pix := pix } quality)
      else
        .ok ([], some (.msg ("\x27" ++ r.Format.String ++ "\x27 cannot convert to JPEG")))

/-- An encoder stand-in that writes the pixel buffer out unchanged; used to
evaluate `ToJpegData` on concrete inputs. -/
def pixEncoder (img : image.RGBA) (_quality : Int) : List Byte × Option Error := (img.Pix, none)

/-! ## capture_from_device.go, capture_from_uri.go: source construction

The context and the I/O parameters are not read by the constructors and are left
out of the embedding. -/

def deviceIDPath : String := "device_id"
def fpsPath : String := "fps"
def uriPath : String := "uri"
def frameSkipPath : String := "frame_skip"
def nextFrameErrorPath : String := "next_frame_error"
def rewindPath : String := "rewind"
def rewindablePath : String := "rewindable"

/-- The function a source applies to each frame; `toRawMap` is the only one the
constructors ever store. -/
inductive FormatFunc where
  | toRawMap
  deriving DecidableEq, Repr

structure captureFromDevice where
  deviceID : Int
  width : Int
  height : Int
  fps : Int
  formatFunc : FormatFunc
  deriving DecidableEq, Repr

structure captureFromURI where
  uri : String
  frameSkip : Int
  endErrFlag : Bool
  foramtFunc : FormatFunc
  deriving DecidableEq, Repr

/-- The wrappers of the host engine that `CreateSource` returns. -/
inductive Source (σ : Type) where
  /-- `core.ImplementSourceStop(cs)`. -/
  | ImplementSourceStop (cs : σ)
  /-- `core.NewRewindableSource(cs)`. -/
  | NewRewindableSource (cs : σ)
  deriving DecidableEq, Repr

def FromDeviceCreator.createCaptureFromDevice {β : Type} (params : Map β) :
    Except Error captureFromDevice := do
  let did ← params.Get deviceIDPath
  let deviceID ← AsInt did
  let format ←
    (match params.Get formatPath with
     | .ok fm => AsString fm
     | .error _ => .ok "cvmat")
  let width ← AsInt
    (match params.Get widthPath with
     | .ok w => w
     | .error _ => .int 0)
  let height ← AsInt
    (match params.Get heightPath with
     | .ok h => h
     | .error _ => .int 0)
  let fps ← AsInt
    (match params.Get fpsPath with
     | .ok f => f
     | .error _ => .int 0)
  if format = "cvmat" then
    .ok { deviceID := deviceID, width := width, height := height, fps := fps,
          formatFunc := .toRawMap }
  else
    .error (.msg ("\x27" ++ format ++ "\x27 format is not supported"))

/-- `CreateSource` creates a frame generator using OpenCV video capture. -/
def FromDeviceCreator.CreateSource {β : Type} (params : Map β) :
    Except Error (Source captureFromDevice) :=
  match FromDeviceCreator.createCaptureFromDevice params with
  | .error err => .error err
  | .ok cs => .ok (.ImplementSourceStop cs)

def FromURICreator.createCaptureFromURI {β : Type} (params : Map β) :
    Except Error captureFromURI :=
  match params.Get uriPath with
  | .error _ => .error (.msg "capture source needs URI")
  | .ok uri => do
    let uriStr ← AsString uri
    let format ←
      (match params.Get formatPath with
       | .ok fm => AsString fm
       | .error _ => .ok "cvmat")
    let frameSkip ← AsInt
      (match params.Get frameSkipPath with
       | .ok fs => fs
       | .error _ => .int 0)
    let endErr ← AsBool
      (match params.Get nextFrameErrorPath with
       | .ok endErrFlag => endErrFlag
       | .error _ => .bool true)
    if format = "cvmat" then
      .ok { uri := uriStr, frameSkip := frameSkip, endErrFlag := endErr,
            foramtFunc := .toRawMap }
    else
      .error (.msg ("\x27" ++ format ++ "\x27 format is not supported"))

/-- `CreateSource` creates a frame generator using OpenCV video capture. The
second component is the list of warnings written to the context's log. -/
def FromURICreator.CreateSource {β : Type} (params : Map β) :
    Except Error (Source captureFromURI) × List String :=
  match FromURICreator.createCaptureFromURI params with
  | .error err => (.error err, [])
  | .ok cs =>
    match params.Get rewindablePath with
    | .ok rf =>
      match AsBool rf with
      | .error err => (.error err, [])
      | .ok rewindFlag =>
        (if rewindFlag then .ok (.NewRewindableSource cs)
         else .ok (.ImplementSourceStop cs), [])
    | .error _ =>
      match params.Get rewindPath with
      | .ok rf =>
        let warning :=
          "\"rewind\" is deprecated and not supported in later releases in favor of \"rewindable\""
        match AsBool rf with
        | .error err => (.error err, [warning])
        | .ok rewindFlag =>
          (if rewindFlag then .ok (.NewRewindableSource cs)
           else .ok (.ImplementSourceStop cs), [warning])
      | .error _ => (.ok (.ImplementSourceStop cs), [])

/-! ## cascade_classifier.go: drawing and mounting over an explicit heap

Where aliasing matters a byte slice is the address of a buffer in a heap, and
the calls into the native bridge are recorded in a trace. -/

/-- The address of a Go byte buffer. -/
abbrev Addr := Nat

/-- `bridge.Rect`. -/
structure bridge.Rect where
  X : Int
  Y : Int
  Width : Int
  Height : Int
  deriving DecidableEq, Repr

/-- The capture properties `bridge.CvCapPropFrameWidth`, ... that the device source
sets. -/
inductive bridge.CapProp where
  | CvCapPropFrameWidth
  | CvCapPropFrameHeight
  | CvCapPropFps
  deriving DecidableEq, Repr

/-- The calls into the native bridge, in the order they happen. -/
inductive Event where
  /-- `bridge.ToMatVec3b`: the native image `p` is acquired over the buffer `data`. -/
  | matNew (p : Nat) (data : Addr)
  /-- `MatVec3b.Delete`: the native image `p` is released. -/
  | matDelete (p : Nat)
  /-- `bridge.DrawRectsToImage` on the native image `p`, which holds the buffer
  `data` with contents `bytes`. -/
  | drawRects (p : Nat) (data : Addr) (bytes : List Byte) (rects : List bridge.Rect)
  /-- `bridge.MountAlphaImage` of the overlay `img` on the native image `p`, which
  holds the buffer `data` with contents `bytes`. -/
  | mountAlpha (img : Nat) (p : Nat) (data : Addr) (bytes : List Byte)
      (rects : List bridge.Rect)
  /-- `bridge.NewVideoCapture`: the capture handle `p` is acquired. -/
  | captureNew (p : Nat)
  /-- `VideoCapture.Delete`: the capture handle `p` is released. -/
  | captureDelete (p : Nat)
  /-- `VideoCapture.Open` / `VideoCapture.OpenDevice` on the capture `p`, and
  whether it succeeded. -/
  | captureOpen (p : Nat) (ok : Bool)
  /-- `VideoCapture.Set` on the capture `p`. -/
  | captureSet (p : Nat) (prop : bridge.CapProp) (value : Int)
  /-- `VideoCapture.Read` on the capture `p`, and whether it succeeded. -/
  | captureRead (p : Nat) (ok : Bool)
  /-- `VideoCapture.Grab` on the capture `p`. -/
  | captureGrab (p : Nat) (skip : Int)
  /-- `bridge.NewCascadeClassifier`: the classifier handle `p` is acquired. -/
  | classifierNew (p : Nat)
  /-- `CascadeClassifier.Load` on the classifier `p`, and whether it succeeded. -/
  | classifierLoad (p : Nat) (path : String) (ok : Bool)
  /-- `CascadeClassifier.Delete`: the classifier handle `p` is released. -/
  | classifierDelete (p : Nat)
  /-- `CascadeClassifier.DetectMultiScale` of the classifier `p` on the native
  image `mat`. -/
  | detectMultiScale (p : Nat) (mat : Nat)
  /-- `bridge.LoadAlphaImage`: the overlay image handle `p` is acquired from a
  file, and whether the file could be read. -/
  | alphaImageLoad (p : Nat) (path : String) (ok : Bool)
  deriving DecidableEq, Repr

/-- The state the functions run in: the byte buffers by address, the number of
native objects (images, captures, classifiers) created so far, which names the
next handle, and the trace of bridge calls. -/
structure World where
  heap : List (List Byte)
  mats : Nat
  trace : List Event
  deriving DecidableEq, Repr

/-- The contents of the buffer at an address. -/
def World.read (s : World) (a : Addr) : List Byte := s.heap.getD a []

/-- Overwrite the buffer at an address. -/
def World.write (s : World) (a : Addr) (bytes : List Byte) : World :=
  { s with heap := s.heap.set a bytes }

/-- `make([]byte, n)`: a fresh zeroed buffer. -/
def World.make (s : World) (n : Nat) : Addr × World :=
  (s.heap.length, { s with heap := s.heap ++ [List.replicate n 0] })

/-- `copy(dst, src)`: the first `min(len(dst), len(src))` bytes of `src` are
written over the start of `dst`. -/
def World.copy (s : World) (dst src : Addr) : World :=
  let n := min (s.read dst).length (s.read src).length
  s.write dst ((s.read src).take n ++ (s.read dst).drop n)

/-- Modelled from the spec: the bridge type `MatVec3b`, a native library buffer
that is a view of the packed BGR bytes at the given width and height. It does not
own the bytes, so a native routine that mutates the image writes to the buffer it
was built from. -/
structure bridge.MatVec3b where
  p : Nat
  width : Int
  height : Int
  data : Addr
  deriving DecidableEq, Repr

/-- Modelled from the spec: `bridge.ToMatVec3b(width, height, data)` acquires a
native image that views `data`. -/
def bridge.ToMatVec3b (width height : Int) (data : Addr) (s : World) :
    bridge.MatVec3b × World :=
  ({ p := s.mats, width := width, height := height, data := data },
   { s with mats := s.mats + 1, trace := s.trace ++ [.matNew s.mats data] })

/-- Modelled from the spec: `MatVec3b.Delete` releases the native image. -/
def bridge.MatVec3b.Delete (m : bridge.MatVec3b) (s : World) : World :=
  { s with trace := s.trace ++ [.matDelete m.p] }

/-- Modelled from the spec: `MatVec3b.ToRawData` reads width, height and the
bytes from the native buffer; the bytes come back in a fresh Go slice. -/
def bridge.MatVec3b.ToRawData (m : bridge.MatVec3b) (s : World) :
    (Int × Int × Addr) × World :=
  ((m.width, m.height, s.heap.length), { s with heap := s.heap ++ [s.read m.data] })

/-- Modelled from the spec: `bridge.DrawRectsToImage(mat, rects)` draws each
rectangle's outline into the native image, that is, into the buffer the image
views. What is drawn is the parameter `draw`. -/
def bridge.DrawRectsToImage
    (draw : Int → Int → List Byte → List bridge.Rect → List Byte)
    (m : bridge.MatVec3b) (rects : List bridge.Rect) (s : World) : World :=
  let s1 : World :=
    { s with trace := s.trace ++ [.drawRects m.p m.data (s.read m.data) rects] }
  s1.write m.data (draw m.width m.height (s.read m.data) rects)

/-- Modelled from the spec: `bridge.MountAlphaImage(img, mat, rects)` composites
the overlay image at each rectangle into the native image, that is, into the
buffer the image views. What is composited is the parameter `mount`. -/
def bridge.MountAlphaImage
    (mount : Nat → Int → Int → List Byte → List bridge.Rect → List Byte)
    (img : Nat) (m : bridge.MatVec3b) (rects : List bridge.Rect) (s : World) : World :=
  let s1 : World :=
    { s with trace := s.trace ++ [.mountAlpha img m.p m.data (s.read m.data) rects] }
  s1.write m.data (mount img m.width m.height (s.read m.data) rects)

/-- `ToRawData` converts MatVec3b to RawData. -/
def ToRawData (m : bridge.MatVec3b) (s : World) : RawData Addr × World :=
  match m.ToRawData s with
  | ((w, h, data), s1) => ({ Format := TypeCVMAT, Width := w, Height := h, Data := data }, s1)

def xPath : String := "x"
def yPath : String := "y"

/-- The body of the loop of `convertToBridgeRects`: one rectangle. -/
def convertToBridgeRect {β : Type} (c : Coercions β) (r : Value β) :
    Except Error bridge.Rect :=
  match AsMap r with
  | .error err => .error err
  | .ok rmap =>
  match rmap.Get xPath with
  | .error err => .error err
  | .ok xv =>
  match ToInt c xv with
  | .error err => .error err
  | .ok x =>
  match rmap.Get yPath with
  | .error err => .error err
  | .ok yv =>
  match ToInt c yv with
  | .error err => .error err
  | .ok y =>
  match rmap.Get widthPath with
  | .error err => .error err
  | .ok wv =>
  match ToInt c wv with
  | .error err => .error err
  | .ok width =>
  match rmap.Get heightPath with
  | .error err => .error err
  | .ok hv =>
  match ToInt c hv with
  | .error err => .error err
  | .ok height =>
    .ok { X := wrapInt64 x, Y := wrapInt64 y, Width := wrapInt64 width,
          Height := wrapInt64 height }

/-- `convertToBridgeRects`: the rectangles in order, or the first error. -/
def convertToBridgeRects {β : Type} (c : Coercions β) :
    Array β → Except Error (List bridge.Rect)
  | [] => .ok []
  | r :: rects =>
    match convertToBridgeRect c r with
    | .error err => .error err
    | .ok rect =>
      match convertToBridgeRects c rects with
      | .error err => .error err
      | .ok brRects => .ok (rect :: brRects)

/-- `DrawRectsToImage` draws rectangle information on target image. -/
def DrawRectsToImage (c : Coercions Addr)
    (draw : Int → Int → List Byte → List bridge.Rect → List Byte)
    (img : Map Addr) (rects : Array Addr) (s : World) :
    Except Error (Map Addr) × World :=
  if rects.length = 0 then
    (.ok img, s)
  else
    match ConvertMapToRawData c img with
    | .error err => (.error err, s)
    | .ok raw =>
      -- copy image binary
      let (temp, s1) := s.make (s.read raw.Data).length
      let s2 := s1.copy temp raw.Data
      let raw := { raw with Data := temp }
      match raw.ToMatVec3b bridge.ToMatVec3b with
      | .error err => (.error err, s2)
      | .ok newMat =>
        let (mat, s3) := newMat s2
        -- from here on `defer mat.Delete()` runs at every return
        match convertToBridgeRects c rects with
        | .error err => (.error err, mat.Delete s3)
        | .ok brRects =>
          let s4 := bridge.DrawRectsToImage draw mat brRects s3
          let (retRaw, s5) := ToRawData mat s4
          (.ok retRaw.ConvertToDataMap, mat.Delete s5)

/-- The shared states of the host engine's registry, by the type a type assertion
sees: a cascade classifier, a shared image, or a state of some other plugin. -/
inductive SharedState where
  | cascadeClassifier (classifier : Nat)
  | sharedImage (img : Nat)
  | other
  deriving DecidableEq, Repr

/-- The part of `core.Context` the package reads: the shared-state registry. -/
structure Context where
  SharedStates : List (String × SharedState)
  deriving DecidableEq, Repr

/-- `ctx.SharedStates.Get(name)`. -/
def Context.Get (ctx : Context) (name : String) : Except Error SharedState :=
  match List.lookup name ctx.SharedStates with
  | some st => .ok st
  | none => .error (.stateNotFound name)

/-- `lookupSharedImage`: the overlay image handle of the named state. -/
def lookupSharedImage (ctx : Context) (name : String) : Except Error Nat :=
  match ctx.Get name with
  | .error err => .error err
  | .ok st =>
    match st with
    | .sharedImage img => .ok img
    | _ => .error (.msg ("state \x27" ++ name ++
        "\x27 cannot be converted to shared_image.state"))

/-- `MountAlphaImage` draw target image on back image. -/
def MountAlphaImage (ctx : Context) (c : Coercions Addr)
    (mount : Nat → Int → Int → List Byte → List bridge.Rect → List Byte)
    (imgName : String) (back : Map Addr) (rects : Array Addr) (s : World) :
    Except Error (Map Addr) × World :=
  if rects.length = 0 then
    (.ok back, s)
  else
    match lookupSharedImage ctx imgName with
    | .error err => (.error err, s)
    | .ok img =>
      match ConvertMapToRawData c back with
      | .error err => (.error err, s)
      | .ok raw =>
        -- copy image binary
        let (temp, s1) := s.make (s.read raw.Data).length
        let s2 := s1.copy temp raw.Data
        let raw := { raw with Data := temp }
        match raw.ToMatVec3b bridge.ToMatVec3b with
        | .error err => (.error err, s2)
        | .ok newMat =>
          let (mat, s3) := newMat s2
          -- from here on `defer mat.Delete()` runs at every return
          match convertToBridgeRects c rects with
          | .error err => (.error err, mat.Delete s3)
          | .ok brRects =>
            let s4 := bridge.MountAlphaImage mount img mat brRects s3
            let (retRaw, s5) := ToRawData mat s4
            (.ok retRaw.ConvertToDataMap, mat.Delete s5)

/-- A key of a record is absent, or the value under it is refused by the
conversion `conv`. -/
def absentOrNotConvertible {β α : Type} (conv : Value β → Except Error α) (dm : Map β)
    (key : String) : Prop :=
  List.lookup key dm = none ∨ ∃ v err, List.lookup key dm = some v ∧ conv v = .error err

/-- A key of a parameter map is absent. -/
def absent {β : Type} (params : Map β) (key : String) : Prop :=
  List.lookup key params = none

/-- A key of a parameter map is supplied with a value that the conversion `conv`
refuses. -/
def illTyped {β α : Type} (conv : Value β → Except Error α) (params : Map β)
    (key : String) : Prop :=
  ∃ v err, List.lookup key params = some v ∧ conv v = .error err

/-- A parameter is supplied with the value `v`, or omitted with `v` the default
`d`. -/
def suppliedOrDefault {β : Type} (params : Map β) (key : String) (v d : Value β) : Prop :=
  List.lookup key params = some v ∨ (List.lookup key params = none ∧ v = d)

/-! ## capture_from_device.go, capture_from_uri.go: `GenerateStream`

The capture, the frame buffer and the sink are explicit state. A tuple is taken
to be the record it carries (its timestamps are left out). -/

/-- One frame as the native capture delivers it into the frame buffer. -/
structure Frame where
  width : Int
  height : Int
  data : List Byte
  deriving DecidableEq, Repr

/-- Modelled from the spec: what the native library finds outside the program.
A URI or a device either fails to open (`none`) or opens on a finite sequence of
frames: each read delivers the next one and a read after the last one fails. A
cascade file or an image file can be loaded or not. -/
structure Native where
  uris : String → Option (List Frame)
  devices : Int → Option (List Frame)
  cascades : String → Bool
  images : String → Bool

/-- Modelled from the spec: the bridge type `VideoCapture`, a native capture
handle, with the frames it has still to deliver. -/
structure bridge.VideoCapture where
  p : Nat
  frames : List Frame
  deriving DecidableEq, Repr

/-- Modelled from the spec: `bridge.NewVideoCapture()` acquires a capture handle. -/
def bridge.NewVideoCapture (s : World) : bridge.VideoCapture × World :=
  ({ p := s.mats, frames := [] },
   { s with mats := s.mats + 1, trace := s.trace ++ [.captureNew s.mats] })

/-- Modelled from the spec: `VideoCapture.Open(uri)` reports whether the URI
opened. -/
def bridge.VideoCapture.Open (nat : Native) (v : bridge.VideoCapture) (uri : String)
    (s : World) : (Bool × bridge.VideoCapture) × World :=
  match nat.uris uri with
  | some frames =>
    ((true, { v with frames := frames }),
     { s with trace := s.trace ++ [.captureOpen v.p true] })
  | none => ((false, v), { s with trace := s.trace ++ [.captureOpen v.p false] })

/-- Modelled from the spec: `VideoCapture.OpenDevice(device)` reports whether the
device opened. -/
def bridge.VideoCapture.OpenDevice (nat : Native) (v : bridge.VideoCapture) (device : Int)
    (s : World) : (Bool × bridge.VideoCapture) × World :=
  match nat.devices device with
  | some frames =>
    ((true, { v with frames := frames }),
     { s with trace := s.trace ++ [.captureOpen v.p true] })
  | none => ((false, v), { s with trace := s.trace ++ [.captureOpen v.p false] })

/-- Modelled from the spec: `VideoCapture.Set(prop, value)` configures the
capture. -/
def bridge.VideoCapture.Set (v : bridge.VideoCapture) (prop : bridge.CapProp) (value : Int)
    (s : World) : World :=
  { s with trace := s.trace ++ [.captureSet v.p prop value] }

/-- Modelled from the spec: `VideoCapture.Read(buf)` pulls one frame into the
frame buffer and reports whether there was one. -/
def bridge.VideoCapture.Read (v : bridge.VideoCapture) (buf : bridge.MatVec3b) (s : World) :
    (Bool × bridge.VideoCapture × bridge.MatVec3b) × World :=
  match v.frames with
  | [] => ((false, v, buf), { s with trace := s.trace ++ [.captureRead v.p false] })
  | f :: rest =>
    ((true, { v with frames := rest }, { buf with width := f.width, height := f.height }),
     World.write { s with trace := s.trace ++ [.captureRead v.p true] } buf.data f.data)

/-- Modelled from the spec: `VideoCapture.Grab(skip)` advances the capture,
discarding that many frames. -/
def bridge.VideoCapture.Grab (v : bridge.VideoCapture) (skip : Int) (s : World) :
    bridge.VideoCapture × World :=
  ({ v with frames := v.frames.drop skip.toNat },
   { s with trace := s.trace ++ [.captureGrab v.p skip] })

/-- Modelled from the spec: `VideoCapture.Delete` releases the capture handle. -/
def bridge.VideoCapture.Delete (v : bridge.VideoCapture) (s : World) : World :=
  { s with trace := s.trace ++ [.captureDelete v.p] }

/-- Modelled from the spec: `bridge.NewMatVec3b()` acquires an empty native image;
its pixel memory is a fresh buffer. -/
def bridge.NewMatVec3b (s : World) : bridge.MatVec3b × World :=
  ({ p := s.mats, width := 0, height := 0, data := s.heap.length },
   { heap := s.heap ++ [[]], mats := s.mats + 1,
     trace := s.trace ++ [.matNew s.mats s.heap.length] })

/-- Modelled from the spec: `MatVec3b.Empty` reports an image without pixels. -/
def bridge.MatVec3b.Empty (m : bridge.MatVec3b) (s : World) : Bool :=
  (s.read m.data).isEmpty

/-- `toRawMap`: the record of a native image. -/
def toRawMap (m : bridge.MatVec3b) (s : World) : Map Addr × World :=
  match ToRawData m s with
  | (r, s1) =>
    ([ ("format", .string r.Format.String), -- = cv::Mat_<cv::Vec3b> = "cvmat"
       ("width", .int r.Width),
       ("height", .int r.Height),
       ("image", .blob r.Data) ], s1)

/-- Calling the function a source stores. -/
def FormatFunc.call : FormatFunc → bridge.MatVec3b → World → Map Addr × World
  | .toRawMap => Opencv.toRawMap

/-- The host engine's `core.Writer`, the sink of a source: the records it has
accepted so far, and the error, if any, with which it refuses a record. -/
structure Writer where
  written : List (Map Addr)
  refuse : List (Map Addr) → Map Addr → Option Error

/-- `w.Write(ctx, t)`. -/
def Writer.Write (w : Writer) (t : Map Addr) : Option Error × Writer :=
  match w.refuse w.written t with
  | some err => (some err, w)
  | none => (none, { w with written := w.written ++ [t] })

/-- What `GenerateStream` acts on: the heap and the bridge, the sink, and the lines
written to the context's log. -/
structure StreamState where
  world : World
  sink : Writer
  log : List String

/-- The read loop of `captureFromDevice.GenerateStream`. The result is the error
returned and the final state, or `none` when the fuel runs out. -/
def captureFromDevice.loop (c : captureFromDevice) :
    Nat → bridge.VideoCapture → bridge.MatVec3b → StreamState →
      Option (Option Error × StreamState)
  | 0, _, _, _ => none
  | fuel + 1, vcap, buf, st =>
    match vcap.Read buf st.world with
    | ((ok, vcap, buf), s1) =>
      if !ok then
        some (some (.msg ("cannot read a new file (device no: " ++ toString c.deviceID ++ ")")),
              { st with world := s1 })
      else if buf.Empty s1 then
        captureFromDevice.loop c fuel vcap buf { st with world := s1 }
      else
        match c.formatFunc.call buf s1 with
        | (m, s2) =>
          match st.sink.Write m with
          | (some err, sink) => some (some err, { st with world := s2, sink := sink })
          | (none, sink) =>
            captureFromDevice.loop c fuel vcap buf { st with world := s2, sink := sink }

/-- `GenerateStream` streams video capture data. The fuel given to the loop, one
more than the number of frames the capture holds, is never used up. -/
def captureFromDevice.GenerateStream (nat : Native) (c : captureFromDevice)
    (st : StreamState) : Option (Option Error × StreamState) :=
  match bridge.NewVideoCapture st.world with
  | (vcap, s1) =>
    -- from here on `defer vcap.Delete()` runs at every return
    match vcap.OpenDevice nat (wrapInt64 c.deviceID) s1 with
    | ((ok, vcap), s2) =>
      if !ok then
        some (some (.msg ("error opening device: " ++ toString c.deviceID)),
              { st with world := vcap.Delete s2 })
      else
        -- OpenCV video capture configuration
        let s3 := if c.width > 0 then
            vcap.Set .CvCapPropFrameWidth (wrapInt64 c.width) s2 else s2
        let s4 := if c.height > 0 then
            vcap.Set .CvCapPropFrameHeight (wrapInt64 c.height) s3 else s3
        let s5 := if c.fps > 0 then
            vcap.Set .CvCapPropFps (wrapInt64 c.fps) s4 else s4
        -- streaming, capture from vcap
        match bridge.NewMatVec3b s5 with
        | (buf, s6) =>
          -- from here on `defer buf.Delete()` runs at every return
          let log := st.log ++ ["start reading camera device: " ++ toString c.deviceID]
          match captureFromDevice.loop c (vcap.frames.length + 1) vcap buf
              { world := s6, sink := st.sink, log := log } with
          | none => none
          | some (err, st1) =>
            some (err, { st1 with world := vcap.Delete (buf.Delete st1.world) })

/-- The read loop of `captureFromURI.GenerateStream`, entered with the count `cnt`.
The result is the error returned (`none` for `nil`) and the final state, or `none`
when the fuel runs out. -/
def captureFromURI.loop (c : captureFromURI) :
    Nat → Int → bridge.VideoCapture → bridge.MatVec3b → StreamState →
      Option (Option Error × StreamState)
  | 0, _, _, _, _ => none
  | fuel + 1, cnt, vcap, buf, st =>
    let cnt := cnt + 1
    match vcap.Read buf st.world with
    | ((ok, vcap, buf), s1) =>
      if !ok then
        let log := st.log ++ ["total read frames count is " ++ toString (cnt - 1)]
        if c.endErrFlag then
          some (some (.msg "cannot reed a new frame"), { st with world := s1, log := log })
        else
          some (none, { st with world := s1, log := log })
      else
        match (if c.frameSkip > 0 then vcap.Grab (wrapInt64 c.frameSkip) s1
               else (vcap, s1)) with
        | (vcap, s2) =>
          match c.foramtFunc.call buf s2 with
          | (m, s3) =>
            match st.sink.Write m with
            | (some err, sink) => some (some err, { st with world := s3, sink := sink })
            | (none, sink) =>
              captureFromURI.loop c fuel cnt vcap buf { st with world := s3, sink := sink }

/-- `GenerateStream` streams video capture data. The fuel given to the loop, one
more than the number of frames the capture holds, is never used up. -/
def captureFromURI.GenerateStream (nat : Native) (c : captureFromURI)
    (st : StreamState) : Option (Option Error × StreamState) :=
  match bridge.NewVideoCapture st.world with
  | (vcap, s1) =>
    -- from here on `defer vcap.Delete()` runs at every return
    match vcap.Open nat c.uri s1 with
    | ((ok, vcap), s2) =>
      if !ok then
        some (some (.msg ("error opening video stream or file: " ++ c.uri)),
              { st with world := vcap.Delete s2 })
      else
        match bridge.NewMatVec3b s2 with
        | (buf, s3) =>
          -- from here on `defer buf.Delete()` runs at every return
          let log := st.log ++ ["start reading video stream of file: " ++ c.uri]
          match captureFromURI.loop c (vcap.frames.length + 1) 0 vcap buf
              { world := s3, sink := st.sink, log := log } with
          | none => none
          | some (err, st1) =>
            some (err, { st1 with world := vcap.Delete (buf.Delete st1.world) })

/-- A sink that accepts every record. -/
def acceptAll : Writer := { written := [], refuse := fun _ _ => none }

/-- A native library that opens the URI "clip.avi" and the device 0 on the given
frames, and nothing else. -/
def nativeWith (frames : List Frame) : Native where
  uris := fun uri => if uri = "clip.avi" then some frames else none
  devices := fun device => if device = 0 then some frames else none
  cascades := fun _ => false
  images := fun _ => false

/-- The empty state: no buffers, no native objects, no bridge calls. -/
def World.empty : World := { heap := [], mats := 0, trace := [] }

/-- The record of a frame whose bytes were copied to the buffer at `image`. -/
def frameRecord (f : Frame) (image : Addr) : Map Addr :=
  [ ("format", .string "cvmat"),
    ("width", .int f.width),
    ("height", .int f.height),
    ("image", .blob image) ]

/-- The records of successive frames, their bytes copied to successive buffers
from the address `image` on. -/
def frameRecords : Addr → List Frame → List (Map Addr)
  | _, [] => []
  | image, f :: frames => frameRecord f image :: frameRecords (image + 1) frames

/-! ## cascade_classifier.go: the shared states and detection -/

def configFilePath : String := "file"

/-- Modelled from the spec: `bridge.NewCascadeClassifier()` acquires a classifier
handle. -/
def bridge.NewCascadeClassifier (s : World) : Nat × World :=
  (s.mats, { s with mats := s.mats + 1, trace := s.trace ++ [.classifierNew s.mats] })

/-- Modelled from the spec: `CascadeClassifier.Load(path)` reports whether the
cascade configuration file was loaded. -/
def bridge.CascadeClassifier.Load (nat : Native) (cc : Nat) (path : String) (s : World) :
    Bool × World :=
  (nat.cascades path,
   { s with trace := s.trace ++ [.classifierLoad cc path (nat.cascades path)] })

/-- Modelled from the spec: `CascadeClassifier.Delete` releases the classifier
handle. -/
def bridge.CascadeClassifier.Delete (cc : Nat) (s : World) : World :=
  { s with trace := s.trace ++ [.classifierDelete cc] }

/-- Modelled from the spec: `CascadeClassifier.DetectMultiScale(mat)` runs the
multi-scale detector on the native image. What is detected is the parameter
`detect`. -/
def bridge.CascadeClassifier.DetectMultiScale
    (detect : Nat → Int → Int → List Byte → List bridge.Rect)
    (cc : Nat) (m : bridge.MatVec3b) (s : World) : List bridge.Rect × World :=
  (detect cc m.width m.height (s.read m.data),
   { s with trace := s.trace ++ [.detectMultiScale cc m.p] })

/-- Modelled from the spec: `bridge.LoadAlphaImage(path)` acquires an overlay image
handle; it returns a handle whether or not the file could be read. -/
def bridge.LoadAlphaImage (nat : Native) (path : String) (s : World) : Nat × World :=
  (s.mats,
   { s with mats := s.mats + 1,
            trace := s.trace ++ [.alphaImageLoad s.mats path (nat.images path)] })

/-- `NewCascadeClassifier` returns cascadeClassifier state. -/
def NewCascadeClassifier {β : Type} (nat : Native) (params : Map β) (s : World) :
    Except Error SharedState × World :=
  match params.Get configFilePath with
  | .error err => (.error err, s)
  | .ok fp =>
    match AsString fp with
    | .error err => (.error err, s)
    | .ok filePath =>
      match bridge.NewCascadeClassifier s with
      | (cc, s1) =>
        match bridge.CascadeClassifier.Load nat cc filePath s1 with
        | (ok, s2) =>
          if !ok then
            (.error (.msg ("cannot load the file \x27" ++ filePath ++ "\x27")), s2)
          else
            (.ok (.cascadeClassifier cc), s2)

/-- `NewSharedImage` returns shared image file to reduce I/O cost. -/
def NewSharedImage {β : Type} (nat : Native) (params : Map β) (s : World) :
    Except Error SharedState × World :=
  match params.Get configFilePath with
  | .error err => (.error err, s)
  | .ok fp =>
    match AsString fp with
    | .error err => (.error err, s)
    | .ok filePath =>
      match bridge.LoadAlphaImage nat filePath s with
      | (mat, s1) => (.ok (.sharedImage mat), s1)

/-- `lookupCascadeClassifier`: the classifier handle of the named state. -/
def lookupCascadeClassifier (ctx : Context) (name : String) : Except Error Nat :=
  match ctx.Get name with
  | .error err => .error err
  | .ok st =>
    match st with
    | .cascadeClassifier classifier => .ok classifier
    | _ => .error (.msg ("state \x27" ++ name ++
        "\x27 cannot be converted to cascade_classifier.state"))

/-- `DetectMultiScale` classifies and detect image. -/
def DetectMultiScale (ctx : Context) (c : Coercions Addr)
    (detect : Nat → Int → Int → List Byte → List bridge.Rect)
    (classifierName : String) (img : Map Addr) (s : World) :
    Except Error (Array Addr) × World :=
  match ConvertMapToRawData c img with
  | .error err => (.error err, s)
  | .ok raw =>
    match raw.ToMatVec3b bridge.ToMatVec3b with
    | .error err => (.error err, s)
    | .ok newMat =>
      match newMat s with
      | (mat, s1) =>
        -- from here on `defer mat.Delete()` runs at every return
        match lookupCascadeClassifier ctx classifierName with
        | .error err => (.error err, mat.Delete s1)
        | .ok classifier =>
          match bridge.CascadeClassifier.DetectMultiScale detect classifier mat s1 with
          | (rects, s2) =>
            (.ok (rects.map fun r =>
                .map [ ("x", .int r.X), ("y", .int r.Y), ("width", .int r.Width),
                       ("height", .int r.Height) ]),
             mat.Delete s2)

/-- The handle an event acquires, if it acquires one. -/
def Event.acquires : Event → Option Nat
  | .matNew p _ => some p
  | .captureNew p => some p
  | .classifierNew p => some p
  | .alphaImageLoad p _ _ => some p
  | _ => none

/-- The handle an event releases, if it releases one. -/
def Event.releases : Event → Option Nat
  | .matDelete p => some p
  | .captureDelete p => some p
  | .classifierDelete p => some p
  | _ => none

/-- The handles acquired in a run of bridge calls that are not released exactly
once in it. -/
def leaked (events : List Event) : List Nat :=
  (events.filterMap Event.acquires).filter
    (fun p => (events.filterMap Event.releases).count p ≠ 1)

end Opencv

/-! # Theorems -/

namespace Opencv

/-! ## `RawData`: round trip and conversions -/

theorem wrapInt64_of_inIntRange (n : Int) (h : inIntRange n) : wrapInt64 n = n := by
  unfold inIntRange at h
  unfold wrapInt64
  norm_num at h ⊢
  omega

theorem getTypeImageFormat_string (t : TypeImageFormat)
    (h : t = TypeCVMAT ∨ t = TypeCVMAT4b ∨ t = TypeJPEG) :
    GetTypeImageFormat t.String = t ∧ t ≠ typeUnknownFormat := by
  rcases h with h | h | h <;> subst h <;> decide

/-- C1: for every RawData whose Format is cvmat, cvmat4b or jpeg (Width and Height
any Go int, Data any slice), converting it to a record with `ConvertToDataMap`
and back with `ConvertMapToRawData` succeeds and returns the same Format, Width,
Height and Data. -/
theorem convertMapToRawData_convertToDataMap {β : Type} (c : Coercions β)
    (r : RawData β)
    (hf : r.Format = TypeCVMAT ∨ r.Format = TypeCVMAT4b ∨ r.Format = TypeJPEG)
    (hw : inIntRange r.Width) (hh : inIntRange r.Height) :
    ConvertMapToRawData c r.ConvertToDataMap = .ok r := by
  obtain ⟨hg, hu⟩ := getTypeImageFormat_string r.Format hf
  have e1 : (RawData.ConvertToDataMap r).Get widthPath = .ok (.int r.Width) := by
    simp [RawData.ConvertToDataMap, Map.Get, widthPath, List.lookup]
  have e2 : (RawData.ConvertToDataMap r).Get heightPath = .ok (.int r.Height) := by
    simp [RawData.ConvertToDataMap, Map.Get, heightPath, List.lookup]
  have e3 : (RawData.ConvertToDataMap r).Get imagePath = .ok (.blob r.Data) := by
    simp [RawData.ConvertToDataMap, Map.Get, imagePath, List.lookup]
  have e4 : (RawData.ConvertToDataMap r).Get formatPath = .ok (.string r.Format.String) := by
    simp [RawData.ConvertToDataMap, Map.Get, formatPath, List.lookup]
  simp only [ConvertMapToRawData, e1, e2, e3, e4, ToInt, ToBlob, AsString, hg, hu,
    if_false, wrapInt64_of_inIntRange _ hw, wrapInt64_of_inIntRange _ hh]

theorem convertMapToRawData_convertToDataMap_witness :
    ConvertMapToRawData (strictCoercions (List Byte))
        (RawData.ConvertToDataMap ⟨TypeCVMAT4b, 2, 1, [1, 2, 3, 4, 5, 6, 7, 8]⟩)
      = .ok ⟨TypeCVMAT4b, 2, 1, [1, 2, 3, 4, 5, 6, 7, 8]⟩ :=
  convertMapToRawData_convertToDataMap _ _ (by decide) (by decide) (by decide)

/-- C4: for every RawData with Format jpeg, every quality, Width and Height, and
whatever the encoder is, `ToJpegData` returns exactly the Data of the RawData and
no error: the encoder is not consulted. -/
theorem toJpegData_jpeg (encode : image.RGBA → Int → List Byte × Option Error)
    (r : RawData (List Byte)) (quality : Int) (h : r.Format = TypeJPEG) :
    r.ToJpegData encode quality = .ok (r.Data, none) := by
  simp [RawData.ToJpegData, h]

theorem toJpegData_jpeg_witness :
    RawData.ToJpegData (fun _ _ => ([], some (.msg "encoder called")))
      ⟨TypeJPEG, 7, -3, [255, 216, 255]⟩ 0 = .ok ([255, 216, 255], none) :=
  toJpegData_jpeg _ _ _ rfl

/-- C5: for every RawData, `ToMatVec3b` returns an error if and only if the Format
is not cvmat; when the Format is cvmat it succeeds with the native buffer built
from exactly the Width, Height and Data of the RawData. -/
theorem toMatVec3b_error_iff {β μ : Type} (toMat : Int → Int → β → μ) (r : RawData β) :
    ((∃ err, r.ToMatVec3b toMat = .error err) ↔ r.Format ≠ TypeCVMAT) ∧
    (r.Format = TypeCVMAT →
      r.ToMatVec3b toMat = .ok (toMat r.Width r.Height r.Data)) := by
  by_cases h : r.Format = TypeCVMAT <;> simp [RawData.ToMatVec3b, h]

theorem toMatVec3b_error_iff_witness :
    RawData.ToMatVec3b (fun w h (d : List Byte) => (w, h, d)) ⟨TypeCVMAT, 1, 1, [1, 2, 3]⟩
      = .ok (1, 1, [1, 2, 3]) :=
  (toMatVec3b_error_iff _ _).2 rfl

/-! ## `ConvertMapToRawData`: when it fails -/

theorem getTypeImageFormat_eq_unknown_iff (s : String) :
    GetTypeImageFormat s = typeUnknownFormat ↔ (s ≠ "cvmat" ∧ s ≠ "cvmat4b" ∧ s ≠ "jpeg") := by
  unfold GetTypeImageFormat
  split_ifs with h1 h2 h3 <;> simp_all <;> decide

theorem convertMapToRawData_error_iff_aux {β : Type} (c : Coercions β) (dm : Map β) :
    ((∃ err, ConvertMapToRawData c dm = .error err) ↔
      (absentOrNotConvertible (ToInt c) dm "width" ∨ absentOrNotConvertible (ToInt c) dm "height" ∨
       absentOrNotConvertible (ToBlob c) dm "image" ∨ absentOrNotConvertible AsString dm "format" ∨
       ∃ s, List.lookup "format" dm = some (.string s) ∧
         s ≠ "cvmat" ∧ s ≠ "cvmat4b" ∧ s ≠ "jpeg")) := by
  simp only [ConvertMapToRawData, Map.Get, widthPath, heightPath, imagePath, formatPath,
    absentOrNotConvertible]
  cases h1 : List.lookup "width" dm with
  | none => simp
  | some w =>
  cases h2 : ToInt c w with
  | error e => simp [h2]
  | ok width =>
  cases h3 : List.lookup "height" dm with
  | none => simp [h2]
  | some h =>
  cases h4 : ToInt c h with
  | error e => simp [h2, h4]
  | ok height =>
  cases h5 : List.lookup "image" dm with
  | none => simp [h2, h4]
  | some b =>
  cases h6 : ToBlob c b with
  | error e => simp [h2, h4, h6]
  | ok img =>
  cases h7 : List.lookup "format" dm with
  | none => simp [h2, h4, h6]
  | some f =>
  cases f <;> simp [AsString, h2, h4, h6, getTypeImageFormat_eq_unknown_iff]
  rename_i s
  by_cases hs : s ≠ "cvmat" ∧ s ≠ "cvmat4b" ∧ s ≠ "jpeg"
  · simp [hs]
  · rw [if_neg hs]; simp [hs]


theorem convertMapToRawData_ok_format {β : Type} (c : Coercions β) (dm : Map β)
    (r : RawData β) (h : ConvertMapToRawData c dm = .ok r) :
    r.Format ≠ typeUnknownFormat := by
  simp only [ConvertMapToRawData] at h
  split at h <;> try contradiction
  split at h <;> try contradiction
  split at h <;> try contradiction
  split at h <;> try contradiction
  split at h <;> try contradiction
  split at h <;> try contradiction
  split at h <;> try contradiction
  split at h <;> try contradiction
  split at h <;> try contradiction
  rename_i hne
  injection h with h
  subst h
  exact hne

theorem convertMapToRawData_ok_of_fields {β : Type} (c : Coercions β) (dm : Map β)
    (w h : Int) (b : β) (s : String)
    (hw : List.lookup "width" dm = some (.int w))
    (hh : List.lookup "height" dm = some (.int h))
    (hb : List.lookup "image" dm = some (.blob b))
    (hs : List.lookup "format" dm = some (.string s))
    (hv : s = "cvmat" ∨ s = "cvmat4b" ∨ s = "jpeg") :
    ConvertMapToRawData c dm =
      .ok { Format := GetTypeImageFormat s, Width := wrapInt64 w,
            Height := wrapInt64 h, Data := b } := by
  have hu : GetTypeImageFormat s ≠ typeUnknownFormat := by
    rw [Ne, getTypeImageFormat_eq_unknown_iff]
    rcases hv with hv | hv | hv <;> simp [hv]
  simp [ConvertMapToRawData, Map.Get, widthPath, heightPath, imagePath, formatPath,
    hw, hh, hb, hs, ToInt, ToBlob, AsString, hu]

/-- C6: `ConvertMapToRawData` returns an error if and only if width or height is
absent or not convertible to an integer, image is absent or not convertible to a
blob, format is absent or not a string, or the format string is none of "cvmat",
"cvmat4b", "jpeg". Hence a successful result never has the unknown Format, and a
record with integer width and height, a recognised format and a blob under image
succeeds whatever the blob is (no size check against width and height). -/
theorem convertMapToRawData_error_iff {β : Type} (c : Coercions β) (dm : Map β) :
    ((∃ err, ConvertMapToRawData c dm = .error err) ↔
      (absentOrNotConvertible (ToInt c) dm "width" ∨
       absentOrNotConvertible (ToInt c) dm "height" ∨
       absentOrNotConvertible (ToBlob c) dm "image" ∨
       absentOrNotConvertible AsString dm "format" ∨
       ∃ s, List.lookup "format" dm = some (.string s) ∧
         s ≠ "cvmat" ∧ s ≠ "cvmat4b" ∧ s ≠ "jpeg")) ∧
    (∀ r, ConvertMapToRawData c dm = .ok r → r.Format ≠ typeUnknownFormat) ∧
    (∀ (w h : Int) (b : β) (s : String),
      List.lookup "width" dm = some (.int w) →
      List.lookup "height" dm = some (.int h) →
      List.lookup "image" dm = some (.blob b) →
      List.lookup "format" dm = some (.string s) →
      (s = "cvmat" ∨ s = "cvmat4b" ∨ s = "jpeg") →
      ConvertMapToRawData c dm =
        .ok { Format := GetTypeImageFormat s, Width := wrapInt64 w,
              Height := wrapInt64 h, Data := b }) :=
  ⟨convertMapToRawData_error_iff_aux c dm, convertMapToRawData_ok_format c dm,
   convertMapToRawData_ok_of_fields c dm⟩

theorem convertMapToRawData_error_iff_witness :
    ConvertMapToRawData (strictCoercions (List Byte))
        [("image", .blob [9]), ("width", .int 2), ("height", .int 2),
         ("format", .string "cvmat")]
      = .ok { Format := GetTypeImageFormat "cvmat", Width := wrapInt64 2,
              Height := wrapInt64 2, Data := [9] } :=
  (convertMapToRawData_error_iff _ _).2.2 2 2 [9] "cvmat" rfl rfl rfl rfl (Or.inl rfl)

/-! ## Source construction: parameter validation -/

theorem bind_error_iff {α γ : Type} {X : Except Error α} {F : α → Except Error γ}
    {P Q : Prop} (hX : (∃ e, X = .error e) ↔ P)
    (hF : ∀ a, X = .ok a → ((∃ err, F a = .error err) ↔ Q)) :
    (∃ err, (X >>= F) = Except.error err) ↔ P ∨ Q := by
  cases hx : X with
  | error e =>
    have hP : P := hX.1 ⟨e, hx⟩
    simp [hP, bind, Except.bind]
  | ok a =>
    have hP : ¬ P := fun hp => by
      obtain ⟨e, he⟩ := hX.2 hp
      rw [hx] at he
      cases he
    simp [hP, ← hF a hx, bind, Except.bind]

theorem get_error_iff {β : Type} (params : Map β) (key : String) :
    (∃ e, Map.Get params key = .error e) ↔ absent params key := by
  unfold Map.Get absent
  cases List.lookup key params <;> simp

theorem conv_error_iff {β α : Type} (conv : Value β → Except Error α) (params : Map β)
    (key : String) (v : Value β) (h : Map.Get params key = .ok v) :
    (∃ e, conv v = .error e) ↔ illTyped conv params key := by
  unfold Map.Get at h
  unfold illTyped
  cases hl : List.lookup key params with
  | none => simp [hl] at h
  | some v1 =>
    simp only [hl, Except.ok.injEq] at h
    subst h
    simp

theorem default_error_iff {β α : Type} (conv : Value β → Except Error α) (params : Map β)
    (key : String) (d : Value β) (a : α) (hd : conv d = .ok a) :
    (∃ e, conv (match Map.Get params key with
      | .ok w => w
      | .error _ => d) = .error e) ↔ illTyped conv params key := by
  unfold Map.Get illTyped
  cases hl : List.lookup key params with
  | none => simp [hd]
  | some v1 => simp

theorem format_error_iff {β : Type} (params : Map β) (key : String) (d : String) :
    (∃ e, (match Map.Get params key with
      | .ok fm => AsString fm
      | .error _ => .ok d) = .error e) ↔ illTyped AsString params key := by
  unfold Map.Get illTyped
  cases hl : List.lookup key params with
  | none => simp
  | some v1 => simp

theorem format_ok_iff {β : Type} (params : Map β) (key : String) (d format : String)
    (h : (match Map.Get params key with
      | .ok fm => AsString fm
      | .error _ => .ok d) = .ok format) :
    (List.lookup key params = none ∧ format = d) ∨
      List.lookup key params = some (.string format) := by
  unfold Map.Get at h
  cases hl : List.lookup key params with
  | none =>
    simp only [hl, Except.ok.injEq] at h
    exact Or.inl ⟨rfl, h.symm⟩
  | some v1 =>
    simp only [hl] at h
    cases v1 <;> simp_all [AsString]

theorem createCaptureFromDevice_error_iff {β : Type} (params : Map β) :
    (∃ err, FromDeviceCreator.createCaptureFromDevice params = .error err) ↔
      (absent params "device_id" ∨ illTyped AsInt params "device_id" ∨
       illTyped AsString params "format" ∨ illTyped AsInt params "width" ∨
       illTyped AsInt params "height" ∨ illTyped AsInt params "fps" ∨
       ∃ s, List.lookup "format" params = some (.string s) ∧ s ≠ "cvmat") := by
  unfold FromDeviceCreator.createCaptureFromDevice
  simp only [deviceIDPath, formatPath, widthPath, heightPath, fpsPath]
  refine bind_error_iff (get_error_iff _ _) (fun did hdid => ?_)
  refine bind_error_iff (conv_error_iff AsInt _ _ _ hdid) (fun deviceID _ => ?_)
  refine bind_error_iff (format_error_iff _ _ _) (fun format hformat => ?_)
  refine bind_error_iff (default_error_iff AsInt _ _ _ 0 rfl) (fun width _ => ?_)
  refine bind_error_iff (default_error_iff AsInt _ _ _ 0 rfl) (fun height _ => ?_)
  refine bind_error_iff (default_error_iff AsInt _ _ _ 0 rfl) (fun fps _ => ?_)
  rcases format_ok_iff _ _ _ _ hformat with ⟨h1, h2⟩ | h1
  · simp [h1, h2]
  · by_cases hc : format = "cvmat" <;> simp [h1, hc]

theorem get_match_error_iff {β γ : Type} (params : Map β) (key : String) (e0 : Error)
    (F : Value β → Except Error γ) {Q : Prop}
    (hF : ∀ v, Map.Get params key = .ok v → ((∃ err, F v = .error err) ↔ Q)) :
    (∃ err, (match Map.Get params key with
      | Except.error _ => Except.error e0
      | Except.ok v => F v) = Except.error err) ↔ absent params key ∨ Q := by
  cases hx : Map.Get params key with
  | error e =>
    have hP : absent params key := (get_error_iff _ _).1 ⟨e, hx⟩
    simp [hP]
  | ok a =>
    have hP : ¬ absent params key := fun hp => by
      obtain ⟨e, he⟩ := (get_error_iff _ _).2 hp
      rw [hx] at he
      cases he
    simp [hP, ← hF a hx]

theorem createCaptureFromURI_error_iff {β : Type} (params : Map β) :
    (∃ err, FromURICreator.createCaptureFromURI params = .error err) ↔
      (absent params "uri" ∨ illTyped AsString params "uri" ∨
       illTyped AsString params "format" ∨ illTyped AsInt params "frame_skip" ∨
       illTyped AsBool params "next_frame_error" ∨
       ∃ s, List.lookup "format" params = some (.string s) ∧ s ≠ "cvmat") := by
  unfold FromURICreator.createCaptureFromURI
  simp only [uriPath, formatPath, frameSkipPath, nextFrameErrorPath]
  refine get_match_error_iff _ _ _ _ (fun uri huri => ?_)
  refine bind_error_iff (conv_error_iff AsString _ _ _ huri) (fun uriStr _ => ?_)
  refine bind_error_iff (format_error_iff _ _ _) (fun format hformat => ?_)
  refine bind_error_iff (default_error_iff AsInt _ _ _ 0 rfl) (fun frameSkip _ => ?_)
  refine bind_error_iff (default_error_iff AsBool _ _ _ true rfl) (fun endErr _ => ?_)
  rcases format_ok_iff _ _ _ _ hformat with ⟨h1, h2⟩ | h1
  · simp [h1, h2]
  · by_cases hc : format = "cvmat" <;> simp [h1, hc]

theorem illTyped_of_lookup_none {β α : Type} (conv : Value β → Except Error α)
    (params : Map β) (key : String) (h : List.lookup key params = none) :
    ¬ illTyped conv params key := by
  rintro ⟨v, err, hv, _⟩
  rw [h] at hv
  cases hv

theorem createCaptureFromDevice_default_format {β : Type} (params : Map β)
    (h : List.lookup "format" params = none) :
    FromDeviceCreator.createCaptureFromDevice params =
      FromDeviceCreator.createCaptureFromDevice (("format", .string "cvmat") :: params) := by
  simp [FromDeviceCreator.createCaptureFromDevice, Map.Get, deviceIDPath, formatPath,
    widthPath, heightPath, fpsPath, List.lookup, h, AsString]

theorem createCaptureFromURI_default_format {β : Type} (params : Map β)
    (h : List.lookup "format" params = none) :
    FromURICreator.createCaptureFromURI params =
      FromURICreator.createCaptureFromURI (("format", .string "cvmat") :: params) := by
  simp [FromURICreator.createCaptureFromURI, Map.Get, uriPath, formatPath,
    frameSkipPath, nextFrameErrorPath, List.lookup, h, AsString]

/-- C9: for every parameter map whose format value is a string other than
"cvmat", `createCaptureFromDevice` and `createCaptureFromURI` return an error (and
so no source); the constructors are pure, no capture is opened. When the format
key is absent the constructors behave exactly as with format "cvmat" supplied, and
that format is accepted: an error then comes only from another parameter. -/
theorem createCapture_format_cvmat_only {β : Type} (params : Map β) :
    (∀ s, List.lookup "format" params = some (.string s) → s ≠ "cvmat" →
      (∃ err, FromDeviceCreator.createCaptureFromDevice params = .error err) ∧
      (∃ err, FromURICreator.createCaptureFromURI params = .error err)) ∧
    (List.lookup "format" params = none →
      FromDeviceCreator.createCaptureFromDevice params =
        FromDeviceCreator.createCaptureFromDevice (("format", .string "cvmat") :: params) ∧
      FromURICreator.createCaptureFromURI params =
        FromURICreator.createCaptureFromURI (("format", .string "cvmat") :: params)) ∧
    (List.lookup "format" params = none →
      ((∃ err, FromDeviceCreator.createCaptureFromDevice params = .error err) ↔
        (absent params "device_id" ∨ illTyped AsInt params "device_id" ∨
         illTyped AsInt params "width" ∨ illTyped AsInt params "height" ∨
         illTyped AsInt params "fps")) ∧
      ((∃ err, FromURICreator.createCaptureFromURI params = .error err) ↔
        (absent params "uri" ∨ illTyped AsString params "uri" ∨
         illTyped AsInt params "frame_skip" ∨
         illTyped AsBool params "next_frame_error"))) := by
  refine ⟨fun s hs hne => ⟨?_, ?_⟩, fun h => ⟨?_, ?_⟩, fun h => ⟨?_, ?_⟩⟩
  · rw [createCaptureFromDevice_error_iff]
    exact Or.inr (Or.inr (Or.inr (Or.inr (Or.inr (Or.inr ⟨s, hs, hne⟩)))))
  · rw [createCaptureFromURI_error_iff]
    exact Or.inr (Or.inr (Or.inr (Or.inr (Or.inr ⟨s, hs, hne⟩))))
  · exact createCaptureFromDevice_default_format params h
  · exact createCaptureFromURI_default_format params h
  · rw [createCaptureFromDevice_error_iff]
    have h1 := illTyped_of_lookup_none AsString params "format" h
    simp [h1, h]
  · rw [createCaptureFromURI_error_iff]
    have h1 := illTyped_of_lookup_none AsString params "format" h
    simp [h1, h]

theorem createCapture_format_cvmat_only_witness :
    (∃ err, FromDeviceCreator.createCaptureFromDevice
        [("device_id", (.int 0 : Value (List Byte))), ("uri", .string "/data/file.avi"),
         ("format", .string "4k")] = .error err) ∧
    (∃ err, FromURICreator.createCaptureFromURI
        [("device_id", (.int 0 : Value (List Byte))), ("uri", .string "/data/file.avi"),
         ("format", .string "4k")] = .error err) :=
  (createCapture_format_cvmat_only _).1 "4k" rfl (by decide)

/-- C10: source construction fails (an error, no source) for every parameter map
in which the required key is absent or ill-typed (device_id not an Int for the
device source, uri not a String for the URI source) or in which an optional
parameter of that source is supplied with the wrong type (format not a String;
width, height, fps, frame_skip not an Int; next_frame_error not a Bool). This holds
of `createCaptureFromDevice` / `createCaptureFromURI` and of `CreateSource`. -/
theorem createSource_error_of_ill_typed {β : Type} (params : Map β) :
    ((absent params "device_id" ∨ illTyped AsInt params "device_id" ∨
      illTyped AsString params "format" ∨ illTyped AsInt params "width" ∨
      illTyped AsInt params "height" ∨ illTyped AsInt params "fps") →
      (∃ err, FromDeviceCreator.createCaptureFromDevice params = .error err) ∧
      (∃ err, FromDeviceCreator.CreateSource params = .error err)) ∧
    ((absent params "uri" ∨ illTyped AsString params "uri" ∨
      illTyped AsString params "format" ∨ illTyped AsInt params "frame_skip" ∨
      illTyped AsBool params "next_frame_error") →
      (∃ err, FromURICreator.createCaptureFromURI params = .error err) ∧
      (∃ err, (FromURICreator.CreateSource params).1 = .error err)) := by
  constructor
  · intro h
    have he : ∃ err, FromDeviceCreator.createCaptureFromDevice params = .error err := by
      rw [createCaptureFromDevice_error_iff]
      rcases h with h | h | h | h | h | h <;> simp [h]
    obtain ⟨err, he⟩ := he
    exact ⟨⟨err, he⟩, ⟨err, by simp [FromDeviceCreator.CreateSource, he]⟩⟩
  · intro h
    have he : ∃ err, FromURICreator.createCaptureFromURI params = .error err := by
      rw [createCaptureFromURI_error_iff]
      rcases h with h | h | h | h | h <;> simp [h]
    obtain ⟨err, he⟩ := he
    exact ⟨⟨err, he⟩, ⟨err, by simp [FromURICreator.CreateSource, he]⟩⟩

theorem createSource_error_of_ill_typed_witness :
    (∃ err, FromDeviceCreator.createCaptureFromDevice
        [("device_id", (.string "a" : Value (List Byte)))] = .error err) ∧
    (∃ err, FromDeviceCreator.CreateSource
        [("device_id", (.string "a" : Value (List Byte)))] = .error err) :=
  (createSource_error_of_ill_typed _).1
    (Or.inr (Or.inl ⟨.string "a", .castError "int", rfl, rfl⟩))

/-! ## `DrawRectsToImage`, `MountAlphaImage`: the defensive copy -/

theorem World.read_make (s : World) (a : Addr) :
    (s.make (s.read a).length).2.read a = s.read a := by
  unfold World.make World.read
  rcases Nat.lt_trichotomy a s.heap.length with h | h | h
  · simp [List.getD_eq_getElem?_getD, List.getElem?_append_left h]
  · subst h
    simp [List.getD_eq_getElem?_getD]
  · have h1 : s.heap.length ≤ a := Nat.le_of_lt h
    simp [List.getD_eq_getElem?_getD, List.getElem?_append_right h1, List.getElem?_eq_none h1]

theorem World.read_make_of_lt (s : World) (n : Nat) (a : Addr) (h : a < s.heap.length) :
    (s.make n).2.read a = s.read a := by
  simp [World.make, World.read, List.getD_eq_getElem?_getD, List.getElem?_append_left h]

theorem World.read_make_new (s : World) (n : Nat) :
    (s.make n).2.read s.heap.length = List.replicate n 0 := by
  simp [World.make, World.read, List.getD_eq_getElem?_getD]

theorem World.read_write_of_ne (s : World) (b a : Addr) (bytes : List Byte) (h : a ≠ b) :
    (s.write b bytes).read a = s.read a := by
  simp [World.write, World.read, List.getD_eq_getElem?_getD, List.getElem?_set_ne (Ne.symm h)]

theorem World.read_write_self (s : World) (b : Addr) (bytes : List Byte)
    (h : b < s.heap.length) : (s.write b bytes).read b = bytes := by
  simp [World.write, World.read, List.getD_eq_getElem?_getD, h]

/-- The state after `temp := make([]byte, len(src)); copy(temp, src)`. -/
theorem World.copy_make (s : World) (src : Addr) :
    let s2 := (s.make (s.read src).length).2.copy s.heap.length src
    s2.heap.length = s.heap.length + 1 ∧ s2.read s.heap.length = s.read src ∧
    (∀ a, a < s.heap.length → s2.read a = s.read a) ∧ s2.trace = s.trace ∧
    s2.mats = s.mats := by
  intro s2
  have hlen : (s.make (s.read src).length).2.heap.length = s.heap.length + 1 := by
    simp [World.make]
  refine ⟨?_, ?_, ?_, ?_, ?_⟩
  · simp [s2, World.copy, World.write, hlen]
  · simp only [s2, World.copy]
    rw [World.read_write_self _ _ _ (by rw [hlen]; exact Nat.lt_succ_self _),
      World.read_make_new, World.read_make]
    simp
  · intro a ha
    simp only [s2, World.copy]
    rw [World.read_write_of_ne _ _ _ _ (Nat.ne_of_lt ha), World.read_make_of_lt _ _ _ ha]
  · simp [s2, World.copy, World.write, World.make]
  · simp [s2, World.copy, World.write, World.make]


theorem World.make_fst (s : World) (n : Nat) : (s.make n).1 = s.heap.length := rfl

/-- Reading an address of the initial heap after a write at a later address and an
allocation. -/
theorem read_append_set (heap : List (List Byte)) (n0 a : Nat) (x y : List Byte)
    (hlen : heap.length = n0 + 1) (ha : a < n0) :
    ((heap.set n0 x) ++ [y]).getD a [] = heap.getD a [] := by
  have h1 : a < (heap.set n0 x).length := by simp [hlen]; omega
  have h2 : n0 ≠ a := by omega
  simp [List.getD_eq_getElem?_getD, List.getElem?_append_left h1, List.getElem?_set_ne h2]

theorem drawRects_frame (c : Coercions Addr)
    (draw : Int → Int → List Byte → List bridge.Rect → List Byte)
    (img : Map Addr) (rects : Array Addr) (s : World) :
    (∀ a, a < s.heap.length → (DrawRectsToImage c draw img rects s).2.read a = s.read a) := by
  intro a ha
  unfold DrawRectsToImage
  by_cases hr : rects.length = 0
  · simp [hr]
  rw [if_neg hr]
  cases hc : ConvertMapToRawData c img with
  | error e => simp
  | ok raw =>
    obtain ⟨h1, -, h3, -, -⟩ := World.copy_make s raw.Data
    simp only [World.make_fst]
    generalize (s.make (s.read raw.Data).length).2.copy s.heap.length raw.Data = s2 at *
    have h3a := h3 a ha
    by_cases hf : raw.Format = TypeCVMAT
    · simp only [RawData.ToMatVec3b, hf, ne_eq, not_true_eq_false, if_false]
      cases hb : convertToBridgeRects c rects with
      | error e => exact h3a
      | ok brRects =>
        rw [← h3a]
        exact read_append_set s2.heap s.heap.length a _ _ h1 ha
    · simp only [RawData.ToMatVec3b, hf, ne_eq, not_false_eq_true, if_true]
      exact h3a

theorem drawRects_trace (c : Coercions Addr)
    (draw : Int → Int → List Byte → List bridge.Rect → List Byte)
    (img : Map Addr) (rects : Array Addr) (s : World) :
    (∀ p data bytes rs,
      Event.drawRects p data bytes rs ∈
          (DrawRectsToImage c draw img rects s).2.trace.drop s.trace.length →
        s.heap.length ≤ data ∧
        ∃ raw, ConvertMapToRawData c img = .ok raw ∧ bytes = s.read raw.Data) ∧
    (rects ≠ [] → ∀ m, (DrawRectsToImage c draw img rects s).1 = .ok m →
      ∃ p data bytes rs, Event.drawRects p data bytes rs ∈
          (DrawRectsToImage c draw img rects s).2.trace.drop s.trace.length) := by
  unfold DrawRectsToImage
  by_cases hr : rects.length = 0
  · have : rects = [] := List.length_eq_zero.mp hr
    simp [hr, this]
  rw [if_neg hr]
  cases hc : ConvertMapToRawData c img with
  | error e => simp
  | ok raw =>
    obtain ⟨-, h2, -, h4, -⟩ := World.copy_make s raw.Data
    simp only [World.make_fst]
    generalize (s.make (s.read raw.Data).length).2.copy s.heap.length raw.Data = s2 at *
    by_cases hf : raw.Format = TypeCVMAT
    · simp only [RawData.ToMatVec3b, hf, ne_eq, not_true_eq_false, if_false]
      cases hb : convertToBridgeRects c rects with
      | error e =>
        simp [bridge.ToMatVec3b, bridge.MatVec3b.Delete, h4]
      | ok brRects =>
        simp [bridge.ToMatVec3b, bridge.MatVec3b.Delete, bridge.DrawRectsToImage, ToRawData,
          bridge.MatVec3b.ToRawData, World.write, h4]
        rintro p data bytes rs - rfl rfl -
        exact ⟨le_refl _, h2⟩
    · simp [RawData.ToMatVec3b, hf, h4]

theorem mountAlpha_frame (ctx : Context) (c : Coercions Addr)
    (mount : Nat → Int → Int → List Byte → List bridge.Rect → List Byte)
    (imgName : String) (back : Map Addr) (rects : Array Addr) (s : World) :
    (∀ a, a < s.heap.length →
      (MountAlphaImage ctx c mount imgName back rects s).2.read a = s.read a) := by
  intro a ha
  unfold MountAlphaImage
  by_cases hr : rects.length = 0
  · simp [hr]
  rw [if_neg hr]
  cases hl : lookupSharedImage ctx imgName with
  | error e => simp
  | ok ov =>
  cases hc : ConvertMapToRawData c back with
  | error e => simp
  | ok raw =>
    obtain ⟨h1, -, h3, -, -⟩ := World.copy_make s raw.Data
    simp only [World.make_fst]
    generalize (s.make (s.read raw.Data).length).2.copy s.heap.length raw.Data = s2 at *
    have h3a := h3 a ha
    by_cases hf : raw.Format = TypeCVMAT
    · simp only [RawData.ToMatVec3b, hf, ne_eq, not_true_eq_false, if_false]
      cases hb : convertToBridgeRects c rects with
      | error e => exact h3a
      | ok brRects =>
        rw [← h3a]
        exact read_append_set s2.heap s.heap.length a _ _ h1 ha
    · simp only [RawData.ToMatVec3b, hf, ne_eq, not_false_eq_true, if_true]
      exact h3a

theorem mountAlpha_trace (ctx : Context) (c : Coercions Addr)
    (mount : Nat → Int → Int → List Byte → List bridge.Rect → List Byte)
    (imgName : String) (back : Map Addr) (rects : Array Addr) (s : World) :
    (∀ ov p data bytes rs,
      Event.mountAlpha ov p data bytes rs ∈
          (MountAlphaImage ctx c mount imgName back rects s).2.trace.drop s.trace.length →
        s.heap.length ≤ data ∧
        ∃ raw, ConvertMapToRawData c back = .ok raw ∧ bytes = s.read raw.Data) ∧
    (rects ≠ [] → ∀ m, (MountAlphaImage ctx c mount imgName back rects s).1 = .ok m →
      ∃ ov p data bytes rs, Event.mountAlpha ov p data bytes rs ∈
          (MountAlphaImage ctx c mount imgName back rects s).2.trace.drop s.trace.length) := by
  unfold MountAlphaImage
  by_cases hr : rects.length = 0
  · have : rects = [] := List.length_eq_zero.mp hr
    simp [hr, this]
  rw [if_neg hr]
  cases hl : lookupSharedImage ctx imgName with
  | error e => simp
  | ok ov =>
  cases hc : ConvertMapToRawData c back with
  | error e => simp
  | ok raw =>
    obtain ⟨-, h2, -, h4, -⟩ := World.copy_make s raw.Data
    simp only [World.make_fst]
    generalize (s.make (s.read raw.Data).length).2.copy s.heap.length raw.Data = s2 at *
    by_cases hf : raw.Format = TypeCVMAT
    · simp only [RawData.ToMatVec3b, hf, ne_eq, not_true_eq_false, if_false]
      cases hb : convertToBridgeRects c rects with
      | error e =>
        simp [bridge.ToMatVec3b, bridge.MatVec3b.Delete, h4]
      | ok brRects =>
        simp [bridge.ToMatVec3b, bridge.MatVec3b.Delete, bridge.MountAlphaImage, ToRawData,
          bridge.MatVec3b.ToRawData, World.write, h4]
        rintro ov1 p data bytes rs - - rfl rfl -
        exact ⟨le_refl _, h2⟩
    · simp [RawData.ToMatVec3b, hf, h4]

/-- C7: with an empty rectangle array `DrawRectsToImage` returns the image record
it was given and no error, and `MountAlphaImage` returns the back record it was
given and no error; neither touches the heap or the bridge. This holds for every
record (also a malformed one) and every context (also one without the named
state). -/
theorem drawRects_mountAlpha_empty_rects (ctx : Context) (c : Coercions Addr)
    (draw : Int → Int → List Byte → List bridge.Rect → List Byte)
    (mount : Nat → Int → Int → List Byte → List bridge.Rect → List Byte)
    (imgName : String) (img back : Map Addr) (s : World) :
    DrawRectsToImage c draw img [] s = (.ok img, s) ∧
    MountAlphaImage ctx c mount imgName back [] s = (.ok back, s) := by
  simp [DrawRectsToImage, MountAlphaImage]

/-- C8: for every image record and every non-empty rectangle array, on success and
on every error return of `DrawRectsToImage` and `MountAlphaImage`: every buffer of
the caller's heap (so the image blob of the input record) has the same bytes after
the call as before; each call of the native drawing / compositing routine made
by the function is on a buffer allocated during the call, whose contents at the
call are the input record's image bytes; and a successful call made one. -/
theorem drawRects_mountAlpha_defensive_copy (ctx : Context) (c : Coercions Addr)
    (draw : Int → Int → List Byte → List bridge.Rect → List Byte)
    (mount : Nat → Int → Int → List Byte → List bridge.Rect → List Byte)
    (imgName : String) (img : Map Addr) (rects : Array Addr) (s : World)
    (hne : rects ≠ []) :
    ((∀ a, a < s.heap.length →
        (DrawRectsToImage c draw img rects s).2.read a = s.read a) ∧
     (∀ p data bytes rs,
        Event.drawRects p data bytes rs ∈
            (DrawRectsToImage c draw img rects s).2.trace.drop s.trace.length →
          s.heap.length ≤ data ∧
          ∃ raw, ConvertMapToRawData c img = .ok raw ∧ bytes = s.read raw.Data) ∧
     (∀ m, (DrawRectsToImage c draw img rects s).1 = .ok m →
        ∃ p data bytes rs, Event.drawRects p data bytes rs ∈
            (DrawRectsToImage c draw img rects s).2.trace.drop s.trace.length)) ∧
    ((∀ a, a < s.heap.length →
        (MountAlphaImage ctx c mount imgName img rects s).2.read a = s.read a) ∧
     (∀ ov p data bytes rs,
        Event.mountAlpha ov p data bytes rs ∈
            (MountAlphaImage ctx c mount imgName img rects s).2.trace.drop s.trace.length →
          s.heap.length ≤ data ∧
          ∃ raw, ConvertMapToRawData c img = .ok raw ∧ bytes = s.read raw.Data) ∧
     (∀ m, (MountAlphaImage ctx c mount imgName img rects s).1 = .ok m →
        ∃ ov p data bytes rs, Event.mountAlpha ov p data bytes rs ∈
            (MountAlphaImage ctx c mount imgName img rects s).2.trace.drop s.trace.length)) :=
  ⟨⟨drawRects_frame c draw img rects s, (drawRects_trace c draw img rects s).1,
    (drawRects_trace c draw img rects s).2 hne⟩,
   ⟨mountAlpha_frame ctx c mount imgName img rects s,
    (mountAlpha_trace ctx c mount imgName img rects s).1,
    (mountAlpha_trace ctx c mount imgName img rects s).2 hne⟩⟩

theorem drawRects_mountAlpha_defensive_copy_witness :
    (DrawRectsToImage (strictCoercions Addr) (fun _ _ bytes _ => bytes.map (fun _ => 255))
        [("format", .string "cvmat"), ("width", .int 1), ("height", .int 1),
         ("image", .blob 0)]
        [.map [("x", .int 0), ("y", .int 0), ("width", .int 1), ("height", .int 1)]]
        { heap := [[1, 2, 3]], mats := 0, trace := [] }).2.read 0 =
      World.read { heap := [[1, 2, 3]], mats := 0, trace := [] } 0 :=
  (drawRects_mountAlpha_defensive_copy ⟨[]⟩ _ _ (fun _ _ _ bytes _ => bytes) "overlay" _ _ _
    (List.cons_ne_nil _ _)).1.1 0 (by decide)

/-- A run of `DrawRectsToImage`: the native routine whitens the copy at address 1,
the returned record holds a further copy at address 2, and the caller's buffer at
address 0 keeps its bytes. -/
theorem drawRects_run :
    DrawRectsToImage (strictCoercions Addr) (fun _ _ bytes _ => bytes.map (fun _ => 255))
        [("format", .string "cvmat"), ("width", .int 1), ("height", .int 1),
         ("image", .blob 0)]
        [.map [("x", .int 0), ("y", .int 0), ("width", .int 1), ("height", .int 1)]]
        { heap := [[1, 2, 3]], mats := 0, trace := [] } =
      (.ok [("format", .string "cvmat"), ("width", .int 1), ("height", .int 1),
            ("image", .blob 2)],
       { heap := [[1, 2, 3], [255, 255, 255], [255, 255, 255]], mats := 1,
         trace := [.matNew 0 1, .drawRects 0 1 [1, 2, 3] [⟨0, 0, 1, 1⟩], .matDelete 0] }) := by
  rfl

/-! ## `ToJpegData`: pixel reordering -/

theorem readAt_of_getElem? (s : List Byte) (i : Nat) (b : Byte) (h : s[i]? = some b) :
    readAt s i = .ok b := by
  simp [readAt, h]

theorem writeAt_of_lt (s : List Byte) (i : Nat) (b : Byte) (h : i < s.length) :
    writeAt s i b = .ok (s.set i b) := by
  simp [writeAt, h]

/-- One iteration of the `TypeCVMAT` loop whose reads and writes are in range. -/
theorem cvmatLoop_succ (data pix : List Byte) (fuel i j : Nat) (d0 d1 d2 : Byte)
    (h0 : data[j]? = some d0) (h1 : data[j + 1]? = some d1) (h2 : data[j + 2]? = some d2)
    (hi : i + 3 < pix.length) :
    cvmatLoop data (fuel + 1) i j pix =
      cvmatLoop data fuel (i + 4) (j + 3)
        ((((pix.set i d2).set (i + 1) d1).set (i + 2) d0).set (i + 3) 0xFF) := by
  have hi0 : i < pix.length := by omega
  rw [cvmatLoop, if_pos hi0]
  simp only [Nat.add_zero]
  rw [readAt_of_getElem? _ _ _ h2, readAt_of_getElem? _ _ _ h1, readAt_of_getElem? _ _ _ h0]
  simp only [bind, Except.bind]
  rw [writeAt_of_lt _ _ _ hi0]
  simp only []
  rw [writeAt_of_lt _ _ _ (by simp; omega)]
  simp only []
  rw [writeAt_of_lt _ _ _ (by simp; omega)]
  simp only []
  rw [writeAt_of_lt _ _ _ (by simp; omega)]

/-- The loop terminates as soon as the index reaches the end of the buffer. -/
theorem cvmatLoop_done (data pix : List Byte) (fuel i j : Nat) (h : pix.length ≤ i) :
    cvmatLoop data fuel i j pix = .ok pix := by
  have hi : ¬ i < pix.length := by omega
  cases fuel <;> simp [cvmatLoop, hi]

/-- The four writes of one iteration, read back. -/
theorem set4_getElem? (pix : List Byte) (i : Nat) (a b c d : Byte)
    (h : i + 3 < pix.length) :
    ((((pix.set i a).set (i + 1) b).set (i + 2) c).set (i + 3) d).length = pix.length ∧
    ((((pix.set i a).set (i + 1) b).set (i + 2) c).set (i + 3) d)[i]? = some a ∧
    ((((pix.set i a).set (i + 1) b).set (i + 2) c).set (i + 3) d)[i + 1]? = some b ∧
    ((((pix.set i a).set (i + 1) b).set (i + 2) c).set (i + 3) d)[i + 2]? = some c ∧
    ((((pix.set i a).set (i + 1) b).set (i + 2) c).set (i + 3) d)[i + 3]? = some d ∧
    (∀ m, m < i →
      ((((pix.set i a).set (i + 1) b).set (i + 2) c).set (i + 3) d)[m]? = pix[m]?) := by
  have h0 : i < pix.length := by omega
  have h1 : i + 1 < pix.length := by omega
  have h2 : i + 2 < pix.length := by omega
  refine ⟨by simp, ?_, ?_, ?_, ?_, ?_⟩
  · simp [List.getElem?_set, h0]
  · simp [List.getElem?_set, h1]
  · simp [List.getElem?_set, h2]
  · simp [List.getElem?_set, h]
  · intro m hm
    have e0 : i ≠ m := by omega
    have e1 : i + 1 ≠ m := by omega
    have e2 : i + 2 ≠ m := by omega
    have e3 : i + 3 ≠ m := by omega
    simp [List.getElem?_set, e0, e1, e2, e3]

/-- Invariant of the `TypeCVMAT` loop, entered at pixel `k` of `n` with enough fuel:
it ends without a panic, keeps the buffer length and the bytes of the pixels before
`k`, and leaves every pixel from `k` on as the reordered source pixel. -/
theorem cvmatLoop_spec (data : List Byte) (n : Nat) (hdata : 3 * n ≤ data.length) :
    ∀ (d k fuel : Nat) (pix : List Byte), d = n - k → k ≤ n → n - k ≤ fuel →
      pix.length = 4 * n →
      ∃ pix', cvmatLoop data fuel (4 * k) (3 * k) pix = .ok pix' ∧
        pix'.length = 4 * n ∧
        (∀ i, i < 4 * k → pix'[i]? = pix[i]?) ∧
        (∀ q, k ≤ q → q < n →
          pix'[4 * q]? = data[3 * q + 2]? ∧ pix'[4 * q + 1]? = data[3 * q + 1]? ∧
          pix'[4 * q + 2]? = data[3 * q]? ∧ pix'[4 * q + 3]? = some 0xFF) := by
  intro d
  induction d with
  | zero =>
    intro k fuel pix hd hk _ hlen
    have hkn : k = n := by omega
    refine ⟨pix, cvmatLoop_done _ _ _ _ _ (by omega), hlen, fun _ _ => rfl, ?_⟩
    intro q hq1 hq2
    omega
  | succ d ih =>
    intro k fuel pix hd hk hfuel hlen
    obtain ⟨f, rfl⟩ : ∃ f, fuel = f + 1 := ⟨fuel - 1, by omega⟩
    have hj0 : 3 * k < data.length := by omega
    have hj1 : 3 * k + 1 < data.length := by omega
    have hj2 : 3 * k + 2 < data.length := by omega
    have hi : 4 * k + 3 < pix.length := by omega
    have e0 := List.getElem?_eq_getElem hj0
    have e1 := List.getElem?_eq_getElem hj1
    have e2 := List.getElem?_eq_getElem hj2
    obtain ⟨s0, s1, s2, s3, s4, s5⟩ :=
      set4_getElem? pix (4 * k) data[3 * k + 2] data[3 * k + 1] data[3 * k] 0xFF hi
    rw [cvmatLoop_succ data pix f (4 * k) (3 * k) _ _ _ e0 e1 e2 hi]
    have a4 : 4 * k + 4 = 4 * (k + 1) := by ring
    have a3 : 3 * k + 3 = 3 * (k + 1) := by ring
    rw [a4, a3]
    obtain ⟨pix', r1, r2, r3, r4⟩ :=
      ih (k + 1) f _ (by omega) (by omega) (by omega) (s0.trans hlen)
    refine ⟨pix', r1, r2, ?_, ?_⟩
    · intro i hi'
      rw [r3 i (by omega), s5 i hi']
    · intro q hq1 hq2
      rcases Nat.eq_or_lt_of_le hq1 with hq | hq
      · subst hq
        refine ⟨?_, ?_, ?_, ?_⟩
        · rw [r3 _ (by omega), s1, e2]
        · rw [r3 _ (by omega), s2, e1]
        · rw [r3 _ (by omega), s3, e0]
        · rw [r3 _ (by omega), s4]
      · exact r4 q (by omega) hq2

theorem image.Rect_of_nonneg (w h : Int) (hw : 0 ≤ w) (hh : 0 ≤ h) :
    image.Rect 0 0 w h = { MinX := 0, MinY := 0, MaxX := w, MaxY := h } := by
  have h1 : ¬ (0 > w) := by omega
  have h2 : ¬ (0 > h) := by omega
  simp [image.Rect, h1, h2]

/-- `mul3NonNeg(4, w, h)` is the product when `4 * w` fits in 64 bits and
`4 * w * h` fits in an `int`. -/
theorem image.mul3NonNeg_four (w h : Int) (hw : 0 ≤ w) (hh : 0 ≤ h) (hwb : w < 2 ^ 62)
    (hsz : 4 * w * h < 2 ^ 63) : image.mul3NonNeg 4 w h = 4 * w * h := by
  have h0 : ¬ ((4 : Int) < 0 ∨ w < 0 ∨ h < 0) := by omega
  have hp : 0 ≤ 4 * w * h := by positivity
  have h4w : 4 * w < 2 ^ 64 := by norm_num at hwb ⊢; omega
  have e1 : 4 * w / 2 ^ 64 = 0 := Int.ediv_eq_zero_of_lt (by omega) h4w
  have e2 : 4 * w % 2 ^ 64 = 4 * w := Int.emod_eq_of_lt (by omega) h4w
  have h4wh : 4 * w * h < 2 ^ 64 := by norm_num at hsz ⊢; omega
  have e3 : 4 * w * h / 2 ^ 64 = 0 := Int.ediv_eq_zero_of_lt hp h4wh
  have e4 : 4 * w * h % 2 ^ 64 = 4 * w * h := Int.emod_eq_of_lt hp h4wh
  have e5 : wrapInt64 (4 * w * h) = 4 * w * h :=
    wrapInt64_of_inIntRange _ ⟨by norm_num; omega, hsz⟩
  simp only [image.mul3NonNeg, h0, if_false, e1, e2, e3, e4, e5, ne_eq, not_true_eq_false]
  rw [if_neg (by omega)]

theorem toNat_four_mul (w h : Int) (hw : 0 ≤ w) (hh : 0 ≤ h) :
    (4 * w * h).toNat = 4 * w.toNat * h.toNat := by
  lift w to ℕ using hw
  lift h to ℕ using hh
  norm_cast

/-- `image.NewRGBA` on the rectangle of a `w` by `h` image whose pixel buffer fits
in an `int`. -/
theorem image.NewRGBA_of_fits (w h : Int) (hw : 0 ≤ w) (hh : 0 ≤ h) (hwb : w < 2 ^ 62)
    (hhb : h < 2 ^ 63) (hsz : 4 * w * h < 2 ^ 63) :
    image.NewRGBA (image.Rect 0 0 w h) =
      .ok { Pix := List.replicate (4 * w.toNat * h.toNat) 0,
            Stride := wrapInt64 (4 * w),
            Rect := { MinX := 0, MinY := 0, MaxX := w, MaxY := h } } := by
  have hdx : wrapInt64 (w - 0) = w :=
    (congrArg wrapInt64 (sub_zero w)).trans
      (wrapInt64_of_inIntRange _ ⟨by norm_num; omega, by norm_num at hwb ⊢; omega⟩)
  have hdy : wrapInt64 (h - 0) = h :=
    (congrArg wrapInt64 (sub_zero h)).trans
      (wrapInt64_of_inIntRange _ ⟨by norm_num; omega, hhb⟩)
  have hp : 0 ≤ 4 * w * h := by positivity
  have hn : (4 * w * h).toNat = 4 * w.toNat * h.toNat := toNat_four_mul w h hw hh
  simp only [image.NewRGBA, image.pixelBufferLength, image.Rect_of_nonneg _ _ hw hh,
    image.Rectangle.Dx, image.Rectangle.Dy, hdx, hdy,
    image.mul3NonNeg_four w h hw hh hwb hsz, if_neg (not_lt.mpr hp), hn]

/-- C3 (as stated, refuted): a cvmat RawData with Width `2^62`, Height 0 and empty
Data satisfies `w ≥ 0`, `h ≥ 0` and `len(Data) = w*h*3`, yet `ToJpegData` panics:
`image.NewRGBA` refuses the rectangle because `4 * 2^62` overflows, so no pixel
buffer is handed to the encoder. -/
theorem toJpegData_cvmat_huge_width :
    inIntRange 4611686018427387904 ∧
    ([] : List Byte).length =
      (4611686018427387904 : Int).toNat * (0 : Int).toNat * 3 ∧
    RawData.ToJpegData pixEncoder ⟨TypeCVMAT, 4611686018427387904, 0, []⟩ 90 =
      .error .hugeOrNegativeDimensions := by
  refine ⟨by decide, by simp, by rfl⟩

/-- C3 (amended): for every RawData with Format cvmat, Width `w ≥ 0`, Height
`h ≥ 0` (a Go `int`) whose pixel buffer fits (`w < 2^62` and `4*w*h < 2^63`, so
that `image.NewRGBA` does not panic) and `len(Data) = w*h*3` (also with `w = 0` or
`h = 0`), `ToJpegData` does not panic (no index is out of range), and the image it
hands to the encoder has a pixel buffer of length `4*w*h` in which, for every
pixel `k < w*h`, bytes `4k .. 4k+3` are `Data[3k+2]`, `Data[3k+1]`, `Data[3k]`,
`0xFF`. -/
theorem toJpegData_cvmat (encode : image.RGBA → Int → List Byte × Option Error)
    (r : RawData (List Byte)) (quality : Int) (hf : r.Format = TypeCVMAT)
    (hw : 0 ≤ r.Width) (hh : 0 ≤ r.Height)
    (hwb : r.Width < 2 ^ 62) (hhb : r.Height < 2 ^ 63)
    (hsz : 4 * r.Width * r.Height < 2 ^ 63)
    (hlen : r.Data.length = r.Width.toNat * r.Height.toNat * 3) :
    ∃ pix : List Byte,
      r.ToJpegData encode quality =
        .ok (encode { Pix := pix, Stride := wrapInt64 (4 * r.Width),
                      Rect := { MinX := 0, MinY := 0, MaxX := r.Width, MaxY := r.Height } }
              quality) ∧
      pix.length = 4 * r.Width.toNat * r.Height.toNat ∧
      ∀ k, k < r.Width.toNat * r.Height.toNat →
        pix[4 * k]? = r.Data[3 * k + 2]? ∧ pix[4 * k + 1]? = r.Data[3 * k + 1]? ∧
        pix[4 * k + 2]? = r.Data[3 * k]? ∧ pix[4 * k + 3]? = some 0xFF := by
  have hj : r.Format ≠ TypeJPEG := by rw [hf]; decide
  have hnew := image.NewRGBA_of_fits r.Width r.Height hw hh hwb hhb hsz
  have hpix : (List.replicate (4 * r.Width.toNat * r.Height.toNat) (0 : Byte)).length =
      4 * (r.Width.toNat * r.Height.toNat) := by
    simp [Nat.mul_assoc]
  obtain ⟨pix, r1, r2, -, r4⟩ :=
    cvmatLoop_spec r.Data (r.Width.toNat * r.Height.toNat) (by omega) _ 0
      (List.replicate (4 * r.Width.toNat * r.Height.toNat) (0 : Byte)).length
      (List.replicate (4 * r.Width.toNat * r.Height.toNat) (0 : Byte)) rfl (Nat.zero_le _)
      (by rw [hpix]; omega) hpix
  refine ⟨pix, ?_, by rw [r2, Nat.mul_assoc], fun k hk => r4 k (Nat.zero_le _) hk⟩
  simp only [Nat.mul_zero] at r1
  unfold RawData.ToJpegData
  rw [if_neg hj, hnew]
  simp only [hf, if_true, r1, bind, Except.bind]

theorem toJpegData_cvmat_witness :
    ∃ pix : List Byte,
      RawData.ToJpegData pixEncoder ⟨TypeCVMAT, 2, 1, [1, 2, 3, 4, 5, 6]⟩ 90 =
        .ok (pixEncoder { Pix := pix, Stride := wrapInt64 (4 * 2),
                          Rect := { MinX := 0, MinY := 0, MaxX := 2, MaxY := 1 } } 90) ∧
      pix.length = 4 * (2 : Int).toNat * (1 : Int).toNat ∧
      ∀ k, k < (2 : Int).toNat * (1 : Int).toNat →
        pix[4 * k]? = [1, 2, 3, 4, 5, (6 : Byte)][3 * k + 2]? ∧
        pix[4 * k + 1]? = [1, 2, 3, 4, 5, (6 : Byte)][3 * k + 1]? ∧
        pix[4 * k + 2]? = [1, 2, 3, 4, 5, (6 : Byte)][3 * k]? ∧
        pix[4 * k + 3]? = some 0xFF :=
  toJpegData_cvmat pixEncoder ⟨TypeCVMAT, 2, 1, [1, 2, 3, 4, 5, 6]⟩ 90 rfl (by decide)
    (by decide) (by decide) (by decide) (by decide) (by decide)

/-- A zero-width cvmat image: the empty pixel buffer is built and encoded without
a panic. -/
theorem toJpegData_cvmat_empty :
    RawData.ToJpegData pixEncoder ⟨TypeCVMAT, 0, 5, []⟩ 90 = .ok ([], none) := by
  rfl

/-- With Width `2^61` and Height 0 `image.NewRGBA` does not panic, and the stride
`4 * 2^61` of the image handed to the encoder wraps to `-2^63`. -/
theorem toJpegData_cvmat_stride_wraps
    (encode : image.RGBA → Int → List Byte × Option Error) (quality : Int) :
    RawData.ToJpegData encode ⟨TypeCVMAT, 2305843009213693952, 0, []⟩ quality =
      .ok (encode { Pix := [], Stride := -9223372036854775808,
                    Rect := { MinX := 0, MinY := 0, MaxX := 2305843009213693952,
                              MaxY := 0 } } quality) := by
  rfl

/-- `mul3NonNeg(4, w, h)` is -1 when `4 * w` does not fit in 64 bits or `4 * w * h`
does not fit in an `int`. -/
theorem image.mul3NonNeg_four_overflow (w h : Int) (hw : 0 ≤ w) (hh : 0 ≤ h)
    (hbig : 2 ^ 62 ≤ w ∨ 2 ^ 63 ≤ 4 * w * h) : image.mul3NonNeg 4 w h = -1 := by
  have h0 : ¬ ((4 : Int) < 0 ∨ w < 0 ∨ h < 0) := by omega
  have hp : 0 ≤ 4 * w * h := by positivity
  by_cases hw62 : w < 2 ^ 62
  · have hsz : 2 ^ 63 ≤ 4 * w * h := by
      rcases hbig with hb | hb
      · omega
      · exact hb
    have h4w : 4 * w < 2 ^ 64 := by norm_num at hw62 ⊢; omega
    have e1 : 4 * w / 2 ^ 64 = 0 := Int.ediv_eq_zero_of_lt (by omega) h4w
    have e2 : 4 * w % 2 ^ 64 = 4 * w := Int.emod_eq_of_lt (by omega) h4w
    by_cases h64 : 4 * w * h < 2 ^ 64
    · have e3 : 4 * w * h / 2 ^ 64 = 0 := Int.ediv_eq_zero_of_lt hp h64
      have e4 : 4 * w * h % 2 ^ 64 = 4 * w * h := Int.emod_eq_of_lt hp h64
      have e5 : wrapInt64 (4 * w * h) < 0 := by
        unfold wrapInt64
        generalize 4 * w * h = p at hsz h64
        norm_num at hsz h64 ⊢
        omega
      simp only [image.mul3NonNeg, h0, if_false, e1, e2, e3, e4, ne_eq, not_true_eq_false,
        if_pos e5]
    · have e3 : 4 * w * h / 2 ^ 64 ≠ 0 := by
        generalize 4 * w * h = p at h64
        norm_num at h64 ⊢
        omega
      simp only [image.mul3NonNeg, h0, if_false, e1, e2, ne_eq, not_true_eq_false, e3,
        not_false_eq_true, if_true]
  · have e1 : 4 * w / 2 ^ 64 ≠ 0 := by
      norm_num at hw62 ⊢
      omega
    simp only [image.mul3NonNeg, h0, if_false, ne_eq, e1, not_false_eq_true, if_true]

/-- Outside the size bound the conversion of a cvmat image panics in
`image.NewRGBA`, before any pixel is converted: Width and Height are non-negative
`int`s with `4 * w` beyond 64 bits or `4 * w * h` beyond an `int`. -/
theorem toJpegData_cvmat_too_large (encode : image.RGBA → Int → List Byte × Option Error)
    (r : RawData (List Byte)) (quality : Int) (hf : r.Format = TypeCVMAT)
    (hw : 0 ≤ r.Width) (hh : 0 ≤ r.Height) (hwi : r.Width < 2 ^ 63) (hhi : r.Height < 2 ^ 63)
    (hbig : 2 ^ 62 ≤ r.Width ∨ 2 ^ 63 ≤ 4 * r.Width * r.Height) :
    r.ToJpegData encode quality = .error .hugeOrNegativeDimensions := by
  have hj : r.Format ≠ TypeJPEG := by rw [hf]; decide
  have hdx : wrapInt64 (r.Width - 0) = r.Width :=
    (congrArg wrapInt64 (sub_zero r.Width)).trans
      (wrapInt64_of_inIntRange _ ⟨by norm_num; omega, hwi⟩)
  have hdy : wrapInt64 (r.Height - 0) = r.Height :=
    (congrArg wrapInt64 (sub_zero r.Height)).trans
      (wrapInt64_of_inIntRange _ ⟨by norm_num; omega, hhi⟩)
  have hnew : image.NewRGBA (image.Rect 0 0 r.Width r.Height) =
      .error .hugeOrNegativeDimensions := by
    simp only [image.NewRGBA, image.pixelBufferLength, image.Rect_of_nonneg _ _ hw hh,
      image.Rectangle.Dx, image.Rectangle.Dy, hdx, hdy,
      image.mul3NonNeg_four_overflow _ _ hw hh hbig]
    rfl
  unfold RawData.ToJpegData
  rw [if_neg hj, hnew]

theorem toJpegData_cvmat_too_large_example :
    RawData.ToJpegData pixEncoder ⟨TypeCVMAT, 2147483648, 2147483648, []⟩ 90 =
      .error .hugeOrNegativeDimensions :=
  toJpegData_cvmat_too_large pixEncoder ⟨TypeCVMAT, 2147483648, 2147483648, []⟩ 90 rfl
    (by decide) (by decide) (by decide) (by decide) (Or.inr (by decide))

/-- C2 (the code departs from the claim): on the 2x1 cvmat4b image with pixels
(B, G, R, A) = (1, 2, 3, 4) and (5, 6, 7, 8), `ToJpegData` hands the encoder the
pixel buffer 3 2 1 4, 6 5 4 7. The first pixel is the reordered source pixel; the
second is read from source offset 3 instead of 4 (the loop advances the source
index by 3), where the claim requires 7 6 5 8. -/
theorem toJpegData_cvmat4b_second_pixel
    (encode : image.RGBA → Int → List Byte × Option Error) (quality : Int) :
    RawData.ToJpegData encode ⟨TypeCVMAT4b, 2, 1, [1, 2, 3, 4, 5, 6, 7, 8]⟩ quality =
        .ok (encode { Pix := [3, 2, 1, 4, 6, 5, 4, 7], Stride := 8,
                      Rect := { MinX := 0, MinY := 0, MaxX := 2, MaxY := 1 } } quality) ∧
    ([3, 2, 1, 4, 6, 5, 4, 7] : List Byte) ≠ [3, 2, 1, 4, 7, 6, 5, 8] := by
  constructor
  · rfl
  · decide

/-! ## Source construction: the values stored -/

theorem createCaptureFromDevice_ok {β : Type} (params : Map β) (d : Int)
    (w h f : Option Int)
    (hd : List.lookup "device_id" params = some (.int d))
    (hfmt : List.lookup "format" params = none ∨
      List.lookup "format" params = some (.string "cvmat"))
    (hw : List.lookup "width" params = w.map Value.int)
    (hh : List.lookup "height" params = h.map Value.int)
    (hf : List.lookup "fps" params = f.map Value.int) :
    FromDeviceCreator.createCaptureFromDevice params =
      .ok { deviceID := d, width := w.getD 0, height := h.getD 0, fps := f.getD 0,
            formatFunc := .toRawMap } := by
  rcases hfmt with hfmt | hfmt <;> cases w <;> cases h <;> cases f <;>
    simp only [Option.map_none', Option.map_some'] at hw hh hf <;>
    simp [FromDeviceCreator.createCaptureFromDevice, Map.Get, deviceIDPath, formatPath,
      widthPath, heightPath, fpsPath, AsInt, AsString, bind, Except.bind, hd, hfmt, hw, hh, hf]

theorem createCaptureFromURI_ok {β : Type} (params : Map β) (u : String)
    (fs : Option Int) (e : Option Bool)
    (hu : List.lookup "uri" params = some (.string u))
    (hfmt : List.lookup "format" params = none ∨
      List.lookup "format" params = some (.string "cvmat"))
    (hfs : List.lookup "frame_skip" params = fs.map Value.int)
    (he : List.lookup "next_frame_error" params = e.map Value.bool) :
    FromURICreator.createCaptureFromURI params =
      .ok { uri := u, frameSkip := fs.getD 0, endErrFlag := e.getD true,
            foramtFunc := .toRawMap } := by
  rcases hfmt with hfmt | hfmt <;> cases fs <;> cases e <;>
    simp only [Option.map_none', Option.map_some'] at hfs he <;>
    simp [FromURICreator.createCaptureFromURI, Map.Get, uriPath, formatPath,
      frameSkipPath, nextFrameErrorPath, AsInt, AsString, AsBool, bind, Except.bind,
      hu, hfmt, hfs, he]

/-- A key that is neither absent nor ill-typed holds a value the conversion
accepts. -/
theorem lookup_of_not_illTyped {β α : Type} (conv : Value β → Except Error α)
    (params : Map β) (key : String) (h : ¬ illTyped conv params key) :
    List.lookup key params = none ∨
      ∃ v a, List.lookup key params = some v ∧ conv v = .ok a := by
  cases h1 : List.lookup key params with
  | none => exact Or.inl rfl
  | some v =>
    cases h2 : conv v with
    | ok a => exact Or.inr ⟨v, a, rfl, h2⟩
    | error e => exact absurd ⟨v, e, h1, h2⟩ h

theorem asInt_ok {β : Type} (v : Value β) (n : Int) (h : AsInt v = .ok n) : v = .int n := by
  cases v <;> simp_all [AsInt]

theorem asString_ok {β : Type} (v : Value β) (s : String) (h : AsString v = .ok s) :
    v = .string s := by
  cases v <;> simp_all [AsString]

theorem asBool_ok {β : Type} (v : Value β) (b : Bool) (h : AsBool v = .ok b) :
    v = .bool b := by
  cases v <;> simp_all [AsBool]

theorem lookup_optInt {β : Type} (params : Map β) (key : String)
    (h : ¬ illTyped AsInt params key) :
    ∃ w : Option Int, List.lookup key params = w.map Value.int := by
  rcases lookup_of_not_illTyped AsInt params key h with h1 | ⟨v, a, h1, h2⟩
  · exact ⟨none, h1⟩
  · exact ⟨some a, by rw [h1, asInt_ok v a h2]; rfl⟩

theorem lookup_optBool {β : Type} (params : Map β) (key : String)
    (h : ¬ illTyped AsBool params key) :
    ∃ w : Option Bool, List.lookup key params = w.map Value.bool := by
  rcases lookup_of_not_illTyped AsBool params key h with h1 | ⟨v, a, h1, h2⟩
  · exact ⟨none, h1⟩
  · exact ⟨some a, by rw [h1, asBool_ok v a h2]; rfl⟩

theorem lookup_format_cvmat {β : Type} (params : Map β)
    (h1 : ¬ illTyped AsString params "format")
    (h2 : ¬ ∃ s, List.lookup "format" params = some (.string s) ∧ s ≠ "cvmat") :
    List.lookup "format" params = none ∨
      List.lookup "format" params = some (.string "cvmat") := by
  rcases lookup_of_not_illTyped AsString params "format" h1 with h | ⟨v, a, h, h'⟩
  · exact Or.inl h
  · right
    rw [asString_ok v a h'] at h
    by_cases ha : a = "cvmat"
    · rw [h, ha]
    · exact absurd ⟨a, h, ha⟩ h2

theorem suppliedOrDefault_int {β : Type} (params : Map β) (key : String) (w : Option Int)
    (h : List.lookup key params = w.map Value.int) :
    suppliedOrDefault params key (.int (w.getD 0)) (.int 0) := by
  cases w with
  | none => exact Or.inr ⟨h, rfl⟩
  | some a => exact Or.inl h

theorem suppliedOrDefault_bool {β : Type} (params : Map β) (key : String) (w : Option Bool)
    (h : List.lookup key params = w.map Value.bool) :
    suppliedOrDefault params key (.bool (w.getD true)) (.bool true) := by
  cases w with
  | none => exact Or.inr ⟨h, rfl⟩
  | some a => exact Or.inl h

theorem createCaptureFromDevice_stored {β : Type} (params : Map β) (cs : captureFromDevice)
    (h : FromDeviceCreator.createCaptureFromDevice params = .ok cs) :
    List.lookup "device_id" params = some (.int cs.deviceID) ∧
    suppliedOrDefault params "width" (.int cs.width) (.int 0) ∧
    suppliedOrDefault params "height" (.int cs.height) (.int 0) ∧
    suppliedOrDefault params "fps" (.int cs.fps) (.int 0) := by
  have hne : ¬ ∃ err, FromDeviceCreator.createCaptureFromDevice params = .error err := by
    rintro ⟨err, he⟩
    rw [h] at he
    cases he
  rw [createCaptureFromDevice_error_iff] at hne
  simp only [not_or] at hne
  obtain ⟨n1, n2, n3, n4, n5, n6, n7⟩ := hne
  have hd : ∃ d, List.lookup "device_id" params = some (.int d) := by
    rcases lookup_of_not_illTyped AsInt params "device_id" n2 with h1 | ⟨v, a, h1, h2⟩
    · exact absurd h1 n1
    · exact ⟨a, by rw [h1, asInt_ok v a h2]⟩
  obtain ⟨d, hd⟩ := hd
  obtain ⟨w, hw⟩ := lookup_optInt params "width" n4
  obtain ⟨hh, hhh⟩ := lookup_optInt params "height" n5
  obtain ⟨f, hf⟩ := lookup_optInt params "fps" n6
  have := createCaptureFromDevice_ok params d w hh f hd (lookup_format_cvmat params n3 n7)
    hw hhh hf
  rw [h] at this
  injection this with this
  subst this
  exact ⟨hd, suppliedOrDefault_int _ _ _ hw, suppliedOrDefault_int _ _ _ hhh,
    suppliedOrDefault_int _ _ _ hf⟩

theorem createCaptureFromURI_stored {β : Type} (params : Map β) (cs : captureFromURI)
    (h : FromURICreator.createCaptureFromURI params = .ok cs) :
    List.lookup "uri" params = some (.string cs.uri) ∧
    suppliedOrDefault params "frame_skip" (.int cs.frameSkip) (.int 0) ∧
    suppliedOrDefault params "next_frame_error" (.bool cs.endErrFlag) (.bool true) := by
  have hne : ¬ ∃ err, FromURICreator.createCaptureFromURI params = .error err := by
    rintro ⟨err, he⟩
    rw [h] at he
    cases he
  rw [createCaptureFromURI_error_iff] at hne
  simp only [not_or] at hne
  obtain ⟨n1, n2, n3, n4, n5, n6⟩ := hne
  have hd : ∃ d, List.lookup "uri" params = some (.string d) := by
    rcases lookup_of_not_illTyped AsString params "uri" n2 with h1 | ⟨v, a, h1, h2⟩
    · exact absurd h1 n1
    · exact ⟨a, by rw [h1, asString_ok v a h2]⟩
  obtain ⟨d, hd⟩ := hd
  obtain ⟨fs, hfs⟩ := lookup_optInt params "frame_skip" n4
  obtain ⟨e, he⟩ := lookup_optBool params "next_frame_error" n5
  have := createCaptureFromURI_ok params d fs e hd (lookup_format_cvmat params n3 n6) hfs he
  rw [h] at this
  injection this with this
  subst this
  exact ⟨hd, suppliedOrDefault_int _ _ _ hfs, suppliedOrDefault_bool _ _ _ he⟩

/-- C11: construction stores exactly the supplied values and uses the defaults for
omitted ones. Whenever `createCaptureFromDevice` yields a source, its deviceID is
the supplied device_id and its width, height, fps are the supplied integers, or 0
when omitted; whenever `createCaptureFromURI` yields a source, its uri is the
supplied string, its frameSkip the supplied frame_skip or 0, its endErrFlag the
supplied next_frame_error or true. And a source is yielded for every well-typed
parameter map (format omitted or "cvmat"). -/
theorem createCapture_stores_parameters {β : Type} (params : Map β) :
    (∀ cs, FromDeviceCreator.createCaptureFromDevice params = .ok cs →
      List.lookup "device_id" params = some (.int cs.deviceID) ∧
      suppliedOrDefault params "width" (.int cs.width) (.int 0) ∧
      suppliedOrDefault params "height" (.int cs.height) (.int 0) ∧
      suppliedOrDefault params "fps" (.int cs.fps) (.int 0)) ∧
    (∀ cs, FromURICreator.createCaptureFromURI params = .ok cs →
      List.lookup "uri" params = some (.string cs.uri) ∧
      suppliedOrDefault params "frame_skip" (.int cs.frameSkip) (.int 0) ∧
      suppliedOrDefault params "next_frame_error" (.bool cs.endErrFlag) (.bool true)) ∧
    (∀ (d : Int) (w h f : Option Int),
      List.lookup "device_id" params = some (.int d) →
      (List.lookup "format" params = none ∨
        List.lookup "format" params = some (.string "cvmat")) →
      List.lookup "width" params = w.map Value.int →
      List.lookup "height" params = h.map Value.int →
      List.lookup "fps" params = f.map Value.int →
      FromDeviceCreator.createCaptureFromDevice params =
        .ok { deviceID := d, width := w.getD 0, height := h.getD 0, fps := f.getD 0,
              formatFunc := .toRawMap }) ∧
    (∀ (u : String) (fs : Option Int) (e : Option Bool),
      List.lookup "uri" params = some (.string u) →
      (List.lookup "format" params = none ∨
        List.lookup "format" params = some (.string "cvmat")) →
      List.lookup "frame_skip" params = fs.map Value.int →
      List.lookup "next_frame_error" params = e.map Value.bool →
      FromURICreator.createCaptureFromURI params =
        .ok { uri := u, frameSkip := fs.getD 0, endErrFlag := e.getD true,
              foramtFunc := .toRawMap }) :=
  ⟨createCaptureFromDevice_stored params, createCaptureFromURI_stored params,
   createCaptureFromDevice_ok params, createCaptureFromURI_ok params⟩

theorem createCapture_stores_parameters_witness :
    FromDeviceCreator.createCaptureFromDevice
        [("device_id", (.int 0 : Value (List Byte))), ("format", .string "cvmat"),
         ("width", .int 500), ("height", .int 600)] =
      .ok { deviceID := 0, width := 500, height := 600, fps := 0,
            formatFunc := .toRawMap } :=
  (createCapture_stores_parameters _).2.2.1 0 (some 500) (some 600) none rfl (Or.inr rfl)
    rfl rfl rfl

/-! ## `FromURICreator.CreateSource`: rewindable and its deprecated alias -/

/-- C17 (as stated, refuted): a valid URI parameter map with rewindable = true and
a non-boolean value under the deprecated key rewind. The deprecated key is not
read when rewindable is present, so construction succeeds with a rewindable
source, although a non-boolean value sits under one of the two keys. -/
theorem createSource_rewind_not_read :
    illTyped AsBool
      [("uri", (.string "/data/file.avi" : Value (List Byte))), ("rewindable", .bool true),
       ("rewind", .string "yes")] "rewind" ∧
    (FromURICreator.CreateSource
      [("uri", (.string "/data/file.avi" : Value (List Byte))), ("rewindable", .bool true),
       ("rewind", .string "yes")]).1 =
      .ok (.NewRewindableSource
        { uri := "/data/file.avi", frameSkip := 0, endErrFlag := true,
          foramtFunc := .toRawMap }) :=
  ⟨⟨.string "yes", .castError "bool", rfl, rfl⟩, rfl⟩

/-- C17 (amended): for every valid URI parameter map (one `createCaptureFromURI`
accepts, yielding `cs`) and every boolean `b`: with rewind = b and no rewindable
key `CreateSource` returns the same source as with rewindable = b, namely the
rewindable source over `cs` when `b` is true and the plain stoppable source
otherwise, and the stoppable source when neither key is present. A non-boolean
value under rewindable makes construction fail; a non-boolean value under rewind
makes it fail when the rewindable key is absent. -/
theorem createSource_rewindable {β : Type} (params : Map β) (cs : captureFromURI)
    (hcs : FromURICreator.createCaptureFromURI params = .ok cs) :
    (∀ b : Bool, List.lookup "rewindable" params = none →
      List.lookup "rewind" params = some (.bool b) →
      (FromURICreator.CreateSource params).1 =
        .ok (if b then .NewRewindableSource cs else .ImplementSourceStop cs)) ∧
    (∀ b : Bool, List.lookup "rewindable" params = some (.bool b) →
      (FromURICreator.CreateSource params).1 =
        .ok (if b then .NewRewindableSource cs else .ImplementSourceStop cs)) ∧
    (List.lookup "rewindable" params = none → List.lookup "rewind" params = none →
      (FromURICreator.CreateSource params).1 = .ok (.ImplementSourceStop cs)) ∧
    (illTyped AsBool params "rewindable" →
      ∃ err, (FromURICreator.CreateSource params).1 = .error err) ∧
    (List.lookup "rewindable" params = none → illTyped AsBool params "rewind" →
      ∃ err, (FromURICreator.CreateSource params).1 = .error err) := by
  refine ⟨?_, ?_, ?_, ?_, ?_⟩
  · intro b h1 h2
    cases b <;>
      simp [FromURICreator.CreateSource, hcs, Map.Get, rewindablePath, rewindPath, h1, h2,
        AsBool]
  · intro b h1
    cases b <;>
      simp [FromURICreator.CreateSource, hcs, Map.Get, rewindablePath, h1, AsBool]
  · intro h1 h2
    simp [FromURICreator.CreateSource, hcs, Map.Get, rewindablePath, rewindPath, h1, h2]
  · rintro ⟨v, err, h1, h2⟩
    exact ⟨err, by simp [FromURICreator.CreateSource, hcs, Map.Get, rewindablePath, h1, h2]⟩
  · rintro h1 ⟨v, err, h2, h3⟩
    exact ⟨err, by
      simp [FromURICreator.CreateSource, hcs, Map.Get, rewindablePath, rewindPath, h1, h2,
        h3]⟩

theorem createSource_rewindable_witness :
    (FromURICreator.CreateSource
      [("uri", (.string "/data/file.avi" : Value (List Byte))), ("rewind", .bool true)]).1 =
      .ok (if true then .NewRewindableSource
              { uri := "/data/file.avi", frameSkip := 0, endErrFlag := true,
                foramtFunc := .toRawMap }
           else .ImplementSourceStop
              { uri := "/data/file.avi", frameSkip := 0, endErrFlag := true,
                foramtFunc := .toRawMap }) :=
  (createSource_rewindable
    [("uri", (.string "/data/file.avi" : Value (List Byte))), ("rewind", .bool true)]
    { uri := "/data/file.avi", frameSkip := 0, endErrFlag := true, foramtFunc := .toRawMap }
    rfl).1 true rfl rfl

/-! ## `GenerateStream` -/

/-- The read loop of the URI source when no frame is left. -/
theorem captureFromURI.loop_exhausted (c : captureFromURI) (fuel : Nat) (cnt : Int)
    (vcap : bridge.VideoCapture) (buf : bridge.MatVec3b) (st : StreamState)
    (h : vcap.frames = []) :
    captureFromURI.loop c (fuel + 1) cnt vcap buf st =
      some (if c.endErrFlag then some (.msg "cannot reed a new frame") else none,
        { st with
          world := { st.world with trace := st.world.trace ++ [.captureRead vcap.p false] },
          log := st.log ++ ["total read frames count is " ++ toString cnt] }) := by
  unfold captureFromURI.loop
  simp only [bridge.VideoCapture.Read, h, Bool.not_false, if_true, add_sub_cancel_right]
  split <;> rfl

/-- One turn of the read loop of the URI source on a frame the sink accepts, without
frame skip. -/
theorem captureFromURI.loop_frame (c : captureFromURI) (fuel : Nat) (cnt : Int)
    (vcap : bridge.VideoCapture) (buf : bridge.MatVec3b) (st : StreamState)
    (f : Frame) (rest : List Frame) (h : vcap.frames = f :: rest)
    (hskip : ¬ c.frameSkip > 0)
    (hsink : ∀ l t, st.sink.refuse l t = none) :
    captureFromURI.loop c (fuel + 1) cnt vcap buf st =
      captureFromURI.loop c fuel (cnt + 1) { vcap with frames := rest }
        { buf with width := f.width, height := f.height }
        { st with
          world :=
            { heap := st.world.heap.set buf.data f.data ++
                [(st.world.heap.set buf.data f.data).getD buf.data []],
              mats := st.world.mats,
              trace := st.world.trace ++ [.captureRead vcap.p true] },
          sink := { st.sink with
            written := st.sink.written ++ [frameRecord f st.world.heap.length] } } := by
  rw [captureFromURI.loop]
  cases hc : c.foramtFunc
  simp [bridge.VideoCapture.Read, h, hskip, FormatFunc.call, toRawMap, ToRawData,
    bridge.MatVec3b.ToRawData, Writer.Write, hsink, World.write, World.read, frameRecord,
    TypeImageFormat.String]

/-- Invariant of the read loop of the URI source over the frames the capture still
holds, without frame skip and with a sink that accepts every record: the loop
ends (the fuel suffices), one record per frame is written in order, each over a
fresh copy of the frame's bytes, and the count logged is the count at entry plus
the number of frames. -/
theorem captureFromURI.loop_spec (c : captureFromURI) (hskip : ¬ c.frameSkip > 0) :
    ∀ (frames : List Frame) (fuel : Nat) (cnt : Int) (vcap : bridge.VideoCapture)
      (buf : bridge.MatVec3b) (st : StreamState),
      vcap.frames = frames → frames.length < fuel →
      (∀ l t, st.sink.refuse l t = none) → buf.data < st.world.heap.length →
      ∃ st', captureFromURI.loop c fuel cnt vcap buf st =
          some (if c.endErrFlag then some (.msg "cannot reed a new frame") else none, st') ∧
        st'.sink.written = st.sink.written ++ frameRecords st.world.heap.length frames ∧
        st'.log = st.log ++
          ["total read frames count is " ++ toString (cnt + (frames.length : Int))] ∧
        st'.world.heap.length = st.world.heap.length + frames.length ∧
        (∀ a : Nat, a < st.world.heap.length → a ≠ buf.data →
          st'.world.read a = st.world.read a) ∧
        (∀ i (hi : i < frames.length),
          st'.world.read (st.world.heap.length + i) = frames[i].data) ∧
        st'.world.mats = st.world.mats ∧
        st'.world.trace = st.world.trace ++
          (List.replicate frames.length (.captureRead vcap.p true) ++
            [.captureRead vcap.p false]) := by
  intro frames
  induction frames with
  | nil =>
    intro fuel cnt vcap buf st hv hfuel _ _
    obtain ⟨k, rfl⟩ : ∃ k, fuel = k + 1 := ⟨fuel - 1, by simp at hfuel; omega⟩
    refine ⟨_, captureFromURI.loop_exhausted c k cnt vcap buf st hv, ?_⟩
    simp [frameRecords, World.read]
  | cons f rest ih =>
    intro fuel cnt vcap buf st hv hfuel hsink hbuf
    simp only [List.length_cons] at hfuel
    obtain ⟨k, rfl⟩ : ∃ k, fuel = k + 1 := ⟨fuel - 1, by omega⟩
    rw [captureFromURI.loop_frame c k cnt vcap buf st f rest hv hskip hsink]
    have hset : (st.world.heap.set buf.data f.data).getD buf.data [] = f.data := by
      simp [List.getD_eq_getElem?_getD, hbuf]
    rw [hset]
    obtain ⟨st', h1, h2, h3, h4, h5, h6, h7, h8⟩ :=
      ih k (cnt + 1) { vcap with frames := rest }
        { buf with width := f.width, height := f.height }
        { st with
          world :=
            { heap := st.world.heap.set buf.data f.data ++ [f.data],
              mats := st.world.mats,
              trace := st.world.trace ++ [.captureRead vcap.p true] },
          sink := { st.sink with
            written := st.sink.written ++ [frameRecord f st.world.heap.length] } }
        rfl (by omega) hsink
        (by
          simp only [List.length_append, List.length_set, List.length_singleton]
          exact Nat.lt_succ_of_lt hbuf)
    have hb : @LT.lt Nat _ buf.data st.world.heap.length := hbuf
    dsimp only at h2 h3 h4 h5 h6 h7 h8
    simp only [List.length_append, List.length_set, List.length_singleton] at h4 h5 h6
    refine ⟨st', h1, ?_, ?_, ?_, ?_, ?_, ?_, ?_⟩
    · rw [h2]
      simp [frameRecords]
    · rw [h3]
      simp only [List.length_cons]
      congr 3
      push_cast
      ring_nf
    · rw [h4]
      simp only [List.length_cons]
      omega
    · intro a ha hne
      rw [h5 a (by omega) hne]
      have h9 : a < (st.world.heap.set buf.data f.data).length := by simp; exact ha
      simp [World.read, List.getD_eq_getElem?_getD, List.getElem?_append_left h9,
        List.getElem?_set_ne (Ne.symm hne)]
    · intro i hi
      cases i with
      | zero =>
        have := h5 st.world.heap.length (by omega) (by omega)
        simp only [Nat.add_zero, List.getElem_cons_zero]
        rw [this]
        simp [World.read, List.getD_eq_getElem?_getD]
      | succ j =>
        have := h6 j (by simpa using hi)
        simp only [List.getElem_cons_succ]
        rw [← this]
        congr 1
        ring
    · rw [h7]
    · rw [h8]
      simp [List.replicate_succ]

theorem frameRecords_length (image : Addr) (frames : List Frame) :
    (frameRecords image frames).length = frames.length := by
  induction frames generalizing image with
  | nil => rfl
  | cons f rest ih => simp [frameRecords, ih]

theorem frameRecords_getElem? (image : Addr) (frames : List Frame) (i : Nat)
    (hi : i < frames.length) :
    (frameRecords image frames)[i]? = some (frameRecord frames[i] (image + i)) := by
  induction frames generalizing image i with
  | nil => simp at hi
  | cons f rest ih =>
    cases i with
    | zero => simp [frameRecords]
    | succ j =>
      simp only [frameRecords, List.getElem?_cons_succ, List.getElem_cons_succ]
      rw [ih (image + 1) j (by simpa using hi)]
      congr 2
      ring

/-- C12: over a capture that opens on a finite sequence of `n` frames, with
frame_skip = 0 and a sink that accepts every record, `GenerateStream` of the URI
source returns (the loop ends); it writes exactly `n` records to the sink, the
i-th being the record of the i-th frame over a copy of that frame's bytes; it logs
the total frame count `n`; and it returns no error when next_frame_error is false
and an error when it is true. -/
theorem generateStream_uri_frames (nat : Native) (c : captureFromURI) (st : StreamState)
    (frames : List Frame) (hopen : nat.uris c.uri = some frames)
    (hskip : c.frameSkip = 0) (hsink : ∀ l t, st.sink.refuse l t = none) :
    ∃ st', captureFromURI.GenerateStream nat c st =
        some (if c.endErrFlag then some (.msg "cannot reed a new frame") else none, st') ∧
      st'.sink.written =
        st.sink.written ++ frameRecords (st.world.heap.length + 1) frames ∧
      (frameRecords (st.world.heap.length + 1) frames).length = frames.length ∧
      (∀ i (hi : i < frames.length),
        (frameRecords (st.world.heap.length + 1) frames)[i]? =
          some (frameRecord frames[i] (st.world.heap.length + 1 + i)) ∧
        st'.world.read (st.world.heap.length + 1 + i) = frames[i].data) ∧
      st'.log = st.log ++
        ["start reading video stream of file: " ++ c.uri,
         "total read frames count is " ++ toString (frames.length : Int)] := by
  have hs : ¬ c.frameSkip > 0 := by omega
  obtain ⟨st1, h1, h2, h3, h4, -, h6, -, -⟩ :=
    captureFromURI.loop_spec c hs frames (frames.length + 1) 0
      { p := st.world.mats, frames := frames }
      { p := st.world.mats + 1, width := 0, height := 0, data := st.world.heap.length }
      { world :=
          { heap := st.world.heap ++ [[]], mats := st.world.mats + 1 + 1,
            trace := st.world.trace ++ [.captureNew st.world.mats] ++
              [.captureOpen st.world.mats true] ++
              [.matNew (st.world.mats + 1) st.world.heap.length] },
        sink := st.sink,
        log := st.log ++ ["start reading video stream of file: " ++ c.uri] }
      rfl (Nat.lt_succ_self _) hsink (by simp)
  dsimp only at h2 h3 h4 h6
  simp only [List.length_append, List.length_singleton] at h2 h4 h6
  refine ⟨{ st1 with world :=
      (bridge.VideoCapture.Delete ⟨st.world.mats, frames⟩
        (bridge.MatVec3b.Delete ⟨st.world.mats + 1, 0, 0, st.world.heap.length⟩
          st1.world)) }, ?_, h2, frameRecords_length _ _, ?_, ?_⟩
  · simp only [captureFromURI.GenerateStream, bridge.NewVideoCapture,
      bridge.VideoCapture.Open, hopen, bridge.NewMatVec3b, Bool.not_true]
    simp only [Bool.false_eq_true, if_false]
    rw [h1]
  · intro i hi
    exact ⟨frameRecords_getElem? _ _ i hi, h6 i hi⟩
  · rw [h3]
    simp

theorem generateStream_uri_frames_witness :
    ∃ st', captureFromURI.GenerateStream
          (nativeWith [⟨1, 1, [1, 2, 3]⟩, ⟨1, 1, [4, 5, 6]⟩, ⟨1, 1, [7, 8, 9]⟩])
          ⟨"clip.avi", 0, false, .toRawMap⟩ ⟨World.empty, acceptAll, []⟩ =
        some (if (false : Bool) then some (.msg "cannot reed a new frame") else none, st') ∧
      st'.sink.written =
        acceptAll.written ++ frameRecords (World.empty.heap.length + 1)
          [⟨1, 1, [1, 2, 3]⟩, ⟨1, 1, [4, 5, 6]⟩, ⟨1, 1, [7, 8, 9]⟩] ∧
      (frameRecords (World.empty.heap.length + 1)
          [⟨1, 1, [1, 2, 3]⟩, ⟨1, 1, [4, 5, 6]⟩, ⟨1, 1, [7, 8, 9]⟩]).length =
        [(⟨1, 1, [1, 2, 3]⟩ : Frame), ⟨1, 1, [4, 5, 6]⟩, ⟨1, 1, [7, 8, 9]⟩].length ∧
      (∀ i (hi : i < [(⟨1, 1, [1, 2, 3]⟩ : Frame), ⟨1, 1, [4, 5, 6]⟩,
            ⟨1, 1, [7, 8, 9]⟩].length),
        (frameRecords (World.empty.heap.length + 1)
            [⟨1, 1, [1, 2, 3]⟩, ⟨1, 1, [4, 5, 6]⟩, ⟨1, 1, [7, 8, 9]⟩])[i]? =
          some (frameRecord
            [(⟨1, 1, [1, 2, 3]⟩ : Frame), ⟨1, 1, [4, 5, 6]⟩, ⟨1, 1, [7, 8, 9]⟩][i]
            (World.empty.heap.length + 1 + i)) ∧
        st'.world.read (World.empty.heap.length + 1 + i) =
          [(⟨1, 1, [1, 2, 3]⟩ : Frame), ⟨1, 1, [4, 5, 6]⟩, ⟨1, 1, [7, 8, 9]⟩][i].data) ∧
      st'.log = [] ++
        ["start reading video stream of file: " ++ "clip.avi",
         "total read frames count is " ++
           toString (([(⟨1, 1, [1, 2, 3]⟩ : Frame), ⟨1, 1, [4, 5, 6]⟩,
             ⟨1, 1, [7, 8, 9]⟩].length : Nat) : Int)] :=
  generateStream_uri_frames
    (nativeWith [⟨1, 1, [1, 2, 3]⟩, ⟨1, 1, [4, 5, 6]⟩, ⟨1, 1, [7, 8, 9]⟩])
    ⟨"clip.avi", 0, false, .toRawMap⟩ ⟨World.empty, acceptAll, []⟩ _ rfl rfl (fun _ _ => rfl)


theorem error_opening_device (x : String) :
    "error opening device: " ++ x = "error" ++ (" opening device: " ++ x) := by
  rw [← String.append_assoc]
  rfl

theorem error_opening_stream (x : String) :
    "error opening video stream or file: " ++ x =
      "error" ++ (" opening video stream or file: " ++ x) := by
  rw [← String.append_assoc]
  rfl

/-- C16: for every integer device id and every URI string, source construction
succeeds; it is a pure function of the parameters and opens nothing. When the
native open then fails, `GenerateStream` of the device source and of the URI source
returns an error whose message starts with "error"; the only bridge calls are the
acquisition of the capture handle, the failed open and the release of the handle
(no read), and the sink and the log are as before (no record written). -/
theorem generateStream_open_failure {β : Type} :
    (∀ d : Int,
      FromDeviceCreator.CreateSource [("device_id", (.int d : Value β))] =
        .ok (.ImplementSourceStop
          { deviceID := d, width := 0, height := 0, fps := 0, formatFunc := .toRawMap })) ∧
    (∀ u : String,
      FromURICreator.CreateSource [("uri", (.string u : Value β))] =
        (.ok (.ImplementSourceStop
          { uri := u, frameSkip := 0, endErrFlag := true, foramtFunc := .toRawMap }), [])) ∧
    (∀ (nat : Native) (c : captureFromDevice) (st : StreamState),
      nat.devices (wrapInt64 c.deviceID) = none →
      captureFromDevice.GenerateStream nat c st =
        some (some (.msg ("error" ++ (" opening device: " ++ toString c.deviceID))),
          { st with world :=
            { st.world with
              mats := st.world.mats + 1,
              trace := st.world.trace ++ [.captureNew st.world.mats] ++
                [.captureOpen st.world.mats false] ++
                [.captureDelete st.world.mats] } })) ∧
    (∀ (nat : Native) (c : captureFromURI) (st : StreamState),
      nat.uris c.uri = none →
      captureFromURI.GenerateStream nat c st =
        some (some (.msg ("error" ++ (" opening video stream or file: " ++ c.uri))),
          { st with world :=
            { st.world with
              mats := st.world.mats + 1,
              trace := st.world.trace ++ [.captureNew st.world.mats] ++
                [.captureOpen st.world.mats false] ++
                [.captureDelete st.world.mats] } })) := by
  refine ⟨fun d => ?_, fun u => ?_, fun nat c st h => ?_, fun nat c st h => ?_⟩
  · simp [FromDeviceCreator.CreateSource, FromDeviceCreator.createCaptureFromDevice, Map.Get,
      List.lookup, deviceIDPath, formatPath, widthPath, heightPath, fpsPath, AsInt, bind,
      Except.bind]
  · simp [FromURICreator.CreateSource, FromURICreator.createCaptureFromURI, Map.Get,
      List.lookup, uriPath, formatPath, frameSkipPath, nextFrameErrorPath, rewindablePath,
      rewindPath, AsInt, AsString, AsBool, bind, Except.bind]
  · simp only [captureFromDevice.GenerateStream, bridge.NewVideoCapture,
      bridge.VideoCapture.OpenDevice, h, Bool.not_false, if_true,
      bridge.VideoCapture.Delete, error_opening_device]
  · simp only [captureFromURI.GenerateStream, bridge.NewVideoCapture,
      bridge.VideoCapture.Open, h, Bool.not_false, if_true,
      bridge.VideoCapture.Delete, error_opening_stream]

theorem generateStream_open_failure_witness :
    captureFromDevice.GenerateStream (nativeWith [])
        { deviceID := 999999, width := 0, height := 0, fps := 0, formatFunc := .toRawMap }
        ⟨World.empty, acceptAll, []⟩ =
      some (some (.msg ("error" ++ (" opening device: " ++ toString (999999 : Int)))),
        { (⟨World.empty, acceptAll, []⟩ : StreamState) with world :=
          { World.empty with
            mats := World.empty.mats + 1,
            trace := World.empty.trace ++ [.captureNew World.empty.mats] ++
              [.captureOpen World.empty.mats false] ++
              [.captureDelete World.empty.mats] } }) :=
  (@generateStream_open_failure (List Byte)).2.2.1 (nativeWith []) _ _ rfl

/-- One turn of the read loop of the device source on an empty frame: nothing is
written to the sink and the loop goes on to the next read. -/
theorem captureFromDevice.loop_empty_frame (c : captureFromDevice) (fuel : Nat)
    (vcap : bridge.VideoCapture) (buf : bridge.MatVec3b) (st : StreamState)
    (f : Frame) (rest : List Frame) (h : vcap.frames = f :: rest) (hf : f.data = [])
    (hbuf : buf.data < st.world.heap.length) :
    captureFromDevice.loop c (fuel + 1) vcap buf st =
      captureFromDevice.loop c fuel { vcap with frames := rest }
        { buf with width := f.width, height := f.height }
        { st with world :=
            { heap := st.world.heap.set buf.data f.data, mats := st.world.mats,
              trace := st.world.trace ++ [.captureRead vcap.p true] } } := by
  rw [captureFromDevice.loop]
  simp [bridge.VideoCapture.Read, h, bridge.MatVec3b.Empty, World.write, World.read,
    List.getD_eq_getElem?_getD, hbuf, hf]

/-- C13 (the code departs from the claim for the URI source): on a capture whose
only frame is empty, with a sink that accepts every record, `GenerateStream` of
the URI source writes the record of the empty frame to the sink, while
`GenerateStream` of the device source skips it and writes nothing. -/
theorem generateStream_uri_empty_frame :
    (captureFromURI.GenerateStream (nativeWith [⟨0, 0, []⟩])
        ⟨"clip.avi", 0, false, .toRawMap⟩ ⟨World.empty, acceptAll, []⟩).map
        (fun r => (r.1, r.2.sink.written)) =
      some (none, [frameRecord ⟨0, 0, []⟩ 1]) ∧
    (captureFromDevice.GenerateStream (nativeWith [⟨0, 0, []⟩])
        ⟨0, 0, 0, 0, .toRawMap⟩ ⟨World.empty, acceptAll, []⟩).map
        (fun r => r.2.sink.written) =
      some [] :=
  ⟨rfl, rfl⟩

/-! ## The shared-state constructors -/

/-- `NewCascadeClassifier` fails when the file parameter is absent or not a string,
and when the native library cannot load the file. -/
theorem newCascadeClassifier_error {β : Type} (nat : Native) (params : Map β) (s : World)
    (h : absent params "file" ∨ illTyped AsString params "file" ∨
      ∃ path, List.lookup "file" params = some (.string path) ∧ nat.cascades path = false) :
    ∃ err, (NewCascadeClassifier nat params s).1 = .error err := by
  unfold NewCascadeClassifier Map.Get
  rcases h with h | ⟨v, err, h1, h2⟩ | ⟨path, h1, h2⟩
  · unfold absent at h
    simp [configFilePath, h]
  · simp [configFilePath, h1, h2]
  · simp [configFilePath, h1, AsString, bridge.NewCascadeClassifier,
      bridge.CascadeClassifier.Load, h2]

/-- `NewSharedImage` fails when the file parameter is absent or not a string. -/
theorem newSharedImage_error {β : Type} (nat : Native) (params : Map β) (s : World)
    (h : absent params "file" ∨ illTyped AsString params "file") :
    ∃ err, (NewSharedImage nat params s).1 = .error err := by
  unfold NewSharedImage Map.Get
  rcases h with h | ⟨v, err, h1, h2⟩
  · unfold absent at h
    simp [configFilePath, h]
  · simp [configFilePath, h1, h2]

/-- `NewSharedImage` returns a state for every string file parameter. -/
theorem newSharedImage_ok {β : Type} (nat : Native) (params : Map β) (s : World)
    (path : String) (h : List.lookup "file" params = some (.string path)) :
    (NewSharedImage nat params s).1 = .ok (.sharedImage s.mats) := by
  simp [NewSharedImage, Map.Get, configFilePath, h, AsString, bridge.LoadAlphaImage]

/-- C14 (the code departs from the claim for `NewSharedImage`): with the file
parameter "not_exist_file", which the native library cannot load,
`NewCascadeClassifier` returns an error, but `NewSharedImage` returns a state and
no error. -/
theorem newSharedImage_unloadable_file :
    (nativeWith []).images "not_exist_file" = false ∧
    (NewCascadeClassifier (nativeWith [])
        [("file", (.string "not_exist_file" : Value (List Byte)))] World.empty).1 =
      .error (.msg "cannot load the file \x27not_exist_file\x27") ∧
    NewSharedImage (nativeWith [])
        [("file", (.string "not_exist_file" : Value (List Byte)))] World.empty =
      (.ok (.sharedImage 0),
       { heap := [], mats := 1, trace := [.alphaImageLoad 0 "not_exist_file" false] }) :=
  ⟨rfl, rfl, rfl⟩

/-- C15 (the code departs from the claim for `NewCascadeClassifier`): with the file
parameter "not_exist_file", which the native library cannot load,
`NewCascadeClassifier` acquires the classifier handle 0, fails, and returns
without releasing the handle: no state carries it and the trace has no release. -/
theorem newCascadeClassifier_leaks_handle :
    NewCascadeClassifier (nativeWith [])
        [("file", (.string "not_exist_file" : Value (List Byte)))] World.empty =
      (.error (.msg "cannot load the file \x27not_exist_file\x27"),
       { heap := [], mats := 1,
         trace := [.classifierNew 0, .classifierLoad 0 "not_exist_file" false] }) ∧
    leaked [.classifierNew 0, .classifierLoad 0 "not_exist_file" false] = [0] :=
  ⟨rfl, rfl⟩

/-! ## Native handles: acquisition and release -/

/-- The read loop of the URI source ends whenever the fuel exceeds the number of
frames left, and its bridge calls neither acquire nor release a handle. -/
theorem uriLoop_trace (c : captureFromURI) :
    ∀ (fuel : Nat) (cnt : Int) (vcap : bridge.VideoCapture) (buf : bridge.MatVec3b)
      (st : StreamState), vcap.frames.length < fuel →
      ∃ r, captureFromURI.loop c fuel cnt vcap buf st = some r ∧
        ∃ evs, r.2.world.trace = st.world.trace ++ evs ∧
          evs.filterMap Event.acquires = [] ∧ evs.filterMap Event.releases = [] := by
  intro fuel
  induction fuel with
  | zero => intro cnt vcap buf st h; omega
  | succ k ih =>
    intro cnt vcap buf st hfuel
    rw [captureFromURI.loop]
    cases hfr : vcap.frames with
    | nil =>
      simp only [bridge.VideoCapture.Read, hfr, Bool.not_false, if_true]
      by_cases he : c.endErrFlag
      · simp only [he, if_true]
        exact ⟨_, rfl, [.captureRead vcap.p false], rfl, rfl, rfl⟩
      · simp only [he, Bool.false_eq_true, if_false]
        exact ⟨_, rfl, [.captureRead vcap.p false], rfl, rfl, rfl⟩
    | cons f rest =>
      rw [hfr] at hfuel
      simp only [List.length_cons] at hfuel
      cases hc : c.foramtFunc
      simp only [bridge.VideoCapture.Read, hfr, Bool.not_true, Bool.false_eq_true, if_false,
        FormatFunc.call, toRawMap, ToRawData, bridge.MatVec3b.ToRawData]
      by_cases hs : c.frameSkip > 0
      · simp only [hs, if_true, bridge.VideoCapture.Grab]
        generalize Writer.Write st.sink _ = w
        rcases w with ⟨_ | err, sink⟩
        · simp only []
          obtain ⟨r, h1, evs, h2, h3, h4⟩ := ih (cnt + 1)
            { p := vcap.p, frames := List.drop (wrapInt64 c.frameSkip).toNat rest }
            { p := buf.p, width := f.width, height := f.height, data := buf.data }
            _ (by simp only [List.length_drop]; omega)
          refine ⟨r, h1, [.captureRead vcap.p true,
            .captureGrab vcap.p (wrapInt64 c.frameSkip)] ++ evs, ?_, ?_, ?_⟩
          · rw [h2]
            simp [World.write, World.read]
          · simp [List.filterMap_append, h3, Event.acquires]
          · simp [List.filterMap_append, h4, Event.releases]
        · simp only []
          exact ⟨_, rfl, [.captureRead vcap.p true,
            .captureGrab vcap.p (wrapInt64 c.frameSkip)], by simp [World.write], rfl, rfl⟩
      · simp only [hs, if_false]
        generalize Writer.Write st.sink _ = w
        rcases w with ⟨_ | err, sink⟩
        · simp only []
          obtain ⟨r, h1, evs, h2, h3, h4⟩ := ih (cnt + 1)
            { p := vcap.p, frames := rest }
            { p := buf.p, width := f.width, height := f.height, data := buf.data }
            _ (by simp only []; omega)
          refine ⟨r, h1, [.captureRead vcap.p true] ++ evs, ?_, ?_, ?_⟩
          · rw [h2]
            simp [World.write, World.read]
          · simp [List.filterMap_append, h3, Event.acquires]
          · simp [List.filterMap_append, h4, Event.releases]
        · simp only []
          exact ⟨_, rfl, [.captureRead vcap.p true], by simp [World.write], rfl, rfl⟩

/-- The read loop of the device source ends whenever the fuel exceeds the number of
frames left, and its bridge calls neither acquire nor release a handle. -/
theorem deviceLoop_trace (c : captureFromDevice) :
    ∀ (fuel : Nat) (vcap : bridge.VideoCapture) (buf : bridge.MatVec3b)
      (st : StreamState), vcap.frames.length < fuel →
      ∃ r, captureFromDevice.loop c fuel vcap buf st = some r ∧
        ∃ evs, r.2.world.trace = st.world.trace ++ evs ∧
          evs.filterMap Event.acquires = [] ∧ evs.filterMap Event.releases = [] := by
  intro fuel
  induction fuel with
  | zero => intro vcap buf st h; omega
  | succ k ih =>
    intro vcap buf st hfuel
    rw [captureFromDevice.loop]
    cases hfr : vcap.frames with
    | nil =>
      simp only [bridge.VideoCapture.Read, hfr, Bool.not_false, if_true]
      exact ⟨_, rfl, [.captureRead vcap.p false], rfl, rfl, rfl⟩
    | cons f rest =>
      rw [hfr] at hfuel
      simp only [List.length_cons] at hfuel
      cases hc : c.formatFunc
      simp only [bridge.VideoCapture.Read, hfr, Bool.not_true, Bool.false_eq_true, if_false,
        FormatFunc.call, toRawMap, ToRawData, bridge.MatVec3b.ToRawData]
      split
      · obtain ⟨r, h1, evs, h2, h3, h4⟩ := ih
          { p := vcap.p, frames := rest }
          { p := buf.p, width := f.width, height := f.height, data := buf.data }
          _ (by simp only []; omega)
        refine ⟨r, h1, [.captureRead vcap.p true] ++ evs, ?_, ?_, ?_⟩
        · rw [h2]
          simp [World.write]
        · simp [List.filterMap_append, h3, Event.acquires]
        · simp [List.filterMap_append, h4, Event.releases]
      · generalize Writer.Write st.sink _ = w
        rcases w with ⟨_ | err, sink⟩
        · simp only []
          obtain ⟨r, h1, evs, h2, h3, h4⟩ := ih
            { p := vcap.p, frames := rest }
            { p := buf.p, width := f.width, height := f.height, data := buf.data }
            _ (by simp only []; omega)
          refine ⟨r, h1, [.captureRead vcap.p true] ++ evs, ?_, ?_, ?_⟩
          · rw [h2]
            simp [World.write, World.read]
          · simp [List.filterMap_append, h3, Event.acquires]
          · simp [List.filterMap_append, h4, Event.releases]
        · simp only []
          exact ⟨_, rfl, [.captureRead vcap.p true], by simp [World.write], rfl, rfl⟩

/-- The handles leaked by a capture handle `p` and a frame buffer `q` that are
acquired, used by calls that neither acquire nor release, and released. -/
theorem leaked_capture_run (p q : Nat) (a : Addr) (hpq : p ≠ q) (pre evs : List Event)
    (hpre1 : pre.filterMap Event.acquires = []) (hpre2 : pre.filterMap Event.releases = [])
    (h1 : evs.filterMap Event.acquires = []) (h2 : evs.filterMap Event.releases = []) :
    leaked ([.captureNew p] ++ pre ++ [.matNew q a] ++ evs ++
      [.matDelete q, .captureDelete p]) = [] := by
  simp [leaked, List.filterMap_append, hpre1, hpre2, h1, h2, Event.acquires, Event.releases,
    List.filter_cons, List.count_cons, hpq, Ne.symm hpq]

/-- `GenerateStream` of the URI source returns, and releases the capture handle and
the frame buffer it acquired exactly once, on every return path. -/
theorem uriGenerateStream_balanced (nat : Native) (c : captureFromURI)
    (st : StreamState) :
    ∃ r, captureFromURI.GenerateStream nat c st = some r ∧
      ∃ evs, r.2.world.trace = st.world.trace ++ evs ∧ leaked evs = [] := by
  unfold captureFromURI.GenerateStream
  cases hopen : nat.uris c.uri with
  | none =>
    simp only [bridge.NewVideoCapture, bridge.VideoCapture.Open, hopen, Bool.not_false,
      if_true, bridge.VideoCapture.Delete]
    refine ⟨_, rfl, [.captureNew st.world.mats, .captureOpen st.world.mats false,
      .captureDelete st.world.mats], by simp, ?_⟩
    simp [leaked, Event.acquires, Event.releases]
  | some frames =>
    simp only [bridge.NewVideoCapture, bridge.VideoCapture.Open, hopen, Bool.not_true,
      Bool.false_eq_true, if_false, bridge.NewMatVec3b]
    obtain ⟨r, h1, evs, h2, h3, h4⟩ := uriLoop_trace c (frames.length + 1) 0
      { p := st.world.mats, frames := frames }
      { p := st.world.mats + 1, width := 0, height := 0, data := st.world.heap.length }
      { world :=
          { heap := st.world.heap ++ [[]], mats := st.world.mats + 1 + 1,
            trace := st.world.trace ++ [.captureNew st.world.mats] ++
              [.captureOpen st.world.mats true] ++
              [.matNew (st.world.mats + 1) st.world.heap.length] },
        sink := st.sink,
        log := st.log ++ ["start reading video stream of file: " ++ c.uri] }
      (Nat.lt_succ_self _)
    rw [h1]
    refine ⟨_, rfl, [.captureNew st.world.mats] ++ [.captureOpen st.world.mats true] ++
      [.matNew (st.world.mats + 1) st.world.heap.length] ++ evs ++
      [.matDelete (st.world.mats + 1), .captureDelete st.world.mats], ?_, ?_⟩
    · simp only [bridge.VideoCapture.Delete, bridge.MatVec3b.Delete, h2]
      simp
    · exact leaked_capture_run _ _ _ (by omega) _ _ rfl rfl h3 h4

/-- `GenerateStream` of the device source returns, and releases the capture handle
and the frame buffer it acquired exactly once, on every return path. -/
theorem deviceGenerateStream_balanced (nat : Native) (c : captureFromDevice)
    (st : StreamState) :
    ∃ r, captureFromDevice.GenerateStream nat c st = some r ∧
      ∃ evs, r.2.world.trace = st.world.trace ++ evs ∧ leaked evs = [] := by
  unfold captureFromDevice.GenerateStream
  cases hopen : nat.devices (wrapInt64 c.deviceID) with
  | none =>
    simp only [bridge.NewVideoCapture, bridge.VideoCapture.OpenDevice, hopen, Bool.not_false,
      if_true, bridge.VideoCapture.Delete]
    refine ⟨_, rfl, [.captureNew st.world.mats, .captureOpen st.world.mats false,
      .captureDelete st.world.mats], by simp, ?_⟩
    simp [leaked, Event.acquires, Event.releases]
  | some frames =>
    simp only [bridge.NewVideoCapture, bridge.VideoCapture.OpenDevice, hopen, Bool.not_true,
      Bool.false_eq_true, if_false, bridge.NewMatVec3b]
    generalize hs5 : (if c.fps > 0 then _ else _ : World) = s5
    have hs : s5.heap = st.world.heap ∧ s5.mats = st.world.mats + 1 ∧
        s5.trace = st.world.trace ++ [.captureNew st.world.mats] ++
          ([.captureOpen st.world.mats true] ++
            (if c.width > 0 then
              [.captureSet st.world.mats .CvCapPropFrameWidth (wrapInt64 c.width)] else []) ++
            (if c.height > 0 then
              [.captureSet st.world.mats .CvCapPropFrameHeight (wrapInt64 c.height)]
              else []) ++
            (if c.fps > 0 then
              [.captureSet st.world.mats .CvCapPropFps (wrapInt64 c.fps)] else [])) := by
      subst hs5
      split_ifs <;> simp [bridge.VideoCapture.Set]
    obtain ⟨hs1, hs2, hs3⟩ := hs
    obtain ⟨r, h1, evs, h2, h3, h4⟩ := deviceLoop_trace c (frames.length + 1)
      { p := st.world.mats, frames := frames }
      { p := s5.mats, width := 0, height := 0, data := s5.heap.length }
      { world :=
          { heap := s5.heap ++ [[]], mats := s5.mats + 1,
            trace := s5.trace ++ [.matNew s5.mats s5.heap.length] },
        sink := st.sink,
        log := st.log ++ ["start reading camera device: " ++ toString c.deviceID] }
      (Nat.lt_succ_self _)
    rw [h1]
    refine ⟨_, rfl, [.captureNew st.world.mats] ++
      ([.captureOpen st.world.mats true] ++
        (if c.width > 0 then
          [.captureSet st.world.mats .CvCapPropFrameWidth (wrapInt64 c.width)] else []) ++
        (if c.height > 0 then
          [.captureSet st.world.mats .CvCapPropFrameHeight (wrapInt64 c.height)] else []) ++
        (if c.fps > 0 then
          [.captureSet st.world.mats .CvCapPropFps (wrapInt64 c.fps)] else [])) ++
      [.matNew s5.mats s5.heap.length] ++ evs ++
      [.matDelete s5.mats, .captureDelete st.world.mats], ?_, ?_⟩
    · simp only [bridge.VideoCapture.Delete, bridge.MatVec3b.Delete, h2, hs3]
      simp
    · refine leaked_capture_run _ _ _ (by omega) _ _ ?_ ?_ h3 h4
      · split_ifs <;> simp [Event.acquires]
      · split_ifs <;> simp [Event.releases]

/-- `DrawRectsToImage` releases the native image it acquired exactly once, on every
return path. -/
theorem drawRects_balanced (c : Coercions Addr)
    (draw : Int → Int → List Byte → List bridge.Rect → List Byte)
    (img : Map Addr) (rects : Array Addr) (s : World) :
    ∃ evs, (DrawRectsToImage c draw img rects s).2.trace = s.trace ++ evs ∧
      leaked evs = [] := by
  unfold DrawRectsToImage
  by_cases hr : rects.length = 0
  · exact ⟨[], by simp [hr], rfl⟩
  rw [if_neg hr]
  cases hc : ConvertMapToRawData c img with
  | error e => exact ⟨[], by simp, rfl⟩
  | ok raw =>
    obtain ⟨-, -, -, h4, -⟩ := World.copy_make s raw.Data
    simp only [World.make_fst]
    generalize (s.make (s.read raw.Data).length).2.copy s.heap.length raw.Data = s2 at *
    by_cases hf : raw.Format = TypeCVMAT
    · simp only [RawData.ToMatVec3b, hf, ne_eq, not_true_eq_false, if_false]
      cases hb : convertToBridgeRects c rects with
      | error e =>
        refine ⟨[.matNew s2.mats s.heap.length, .matDelete s2.mats], ?_, ?_⟩
        · simp [bridge.ToMatVec3b, bridge.MatVec3b.Delete, h4]
        · simp [leaked, Event.acquires, Event.releases]
      | ok brRects =>
        refine ⟨[.matNew s2.mats s.heap.length,
          .drawRects s2.mats s.heap.length (s2.read s.heap.length) brRects,
          .matDelete s2.mats], ?_, ?_⟩
        · simp [bridge.ToMatVec3b, bridge.MatVec3b.Delete, bridge.DrawRectsToImage, ToRawData,
            bridge.MatVec3b.ToRawData, World.write, World.read, h4]
        · simp [leaked, Event.acquires, Event.releases]
    · exact ⟨[], by simp [RawData.ToMatVec3b, hf, h4], rfl⟩

/-- `MountAlphaImage` releases the native image it acquired exactly once, on every
return path. -/
theorem mountAlpha_balanced (ctx : Context) (c : Coercions Addr)
    (mount : Nat → Int → Int → List Byte → List bridge.Rect → List Byte)
    (imgName : String) (back : Map Addr) (rects : Array Addr) (s : World) :
    ∃ evs, (MountAlphaImage ctx c mount imgName back rects s).2.trace = s.trace ++ evs ∧
      leaked evs = [] := by
  unfold MountAlphaImage
  by_cases hr : rects.length = 0
  · exact ⟨[], by simp [hr], rfl⟩
  rw [if_neg hr]
  cases hl : lookupSharedImage ctx imgName with
  | error e => exact ⟨[], by simp, rfl⟩
  | ok ov =>
  cases hc : ConvertMapToRawData c back with
  | error e => exact ⟨[], by simp, rfl⟩
  | ok raw =>
    obtain ⟨-, -, -, h4, -⟩ := World.copy_make s raw.Data
    simp only [World.make_fst]
    generalize (s.make (s.read raw.Data).length).2.copy s.heap.length raw.Data = s2 at *
    by_cases hf : raw.Format = TypeCVMAT
    · simp only [RawData.ToMatVec3b, hf, ne_eq, not_true_eq_false, if_false]
      cases hb : convertToBridgeRects c rects with
      | error e =>
        refine ⟨[.matNew s2.mats s.heap.length, .matDelete s2.mats], ?_, ?_⟩
        · simp [bridge.ToMatVec3b, bridge.MatVec3b.Delete, h4]
        · simp [leaked, Event.acquires, Event.releases]
      | ok brRects =>
        refine ⟨[.matNew s2.mats s.heap.length,
          .mountAlpha ov s2.mats s.heap.length (s2.read s.heap.length) brRects,
          .matDelete s2.mats], ?_, ?_⟩
        · simp [bridge.ToMatVec3b, bridge.MatVec3b.Delete, bridge.MountAlphaImage, ToRawData,
            bridge.MatVec3b.ToRawData, World.write, World.read, h4]
        · simp [leaked, Event.acquires, Event.releases]
    · exact ⟨[], by simp [RawData.ToMatVec3b, hf, h4], rfl⟩

/-- `DetectMultiScale` releases the native image it acquired exactly once, on every
return path. -/
theorem detectMultiScale_balanced (ctx : Context) (c : Coercions Addr)
    (detect : Nat → Int → Int → List Byte → List bridge.Rect)
    (classifierName : String) (img : Map Addr) (s : World) :
    ∃ evs, (DetectMultiScale ctx c detect classifierName img s).2.trace = s.trace ++ evs ∧
      leaked evs = [] := by
  unfold DetectMultiScale
  cases hc : ConvertMapToRawData c img with
  | error e => exact ⟨[], by simp, rfl⟩
  | ok raw =>
    by_cases hf : raw.Format = TypeCVMAT
    · simp only [RawData.ToMatVec3b, hf, ne_eq, not_true_eq_false, if_false]
      cases hl : lookupCascadeClassifier ctx classifierName with
      | error e =>
        refine ⟨[.matNew s.mats raw.Data, .matDelete s.mats], ?_, ?_⟩
        · simp [bridge.ToMatVec3b, bridge.MatVec3b.Delete]
        · simp [leaked, Event.acquires, Event.releases]
      | ok classifier =>
        refine ⟨[.matNew s.mats raw.Data, .detectMultiScale classifier s.mats,
          .matDelete s.mats], ?_, ?_⟩
        · simp [bridge.ToMatVec3b, bridge.MatVec3b.Delete,
            bridge.CascadeClassifier.DetectMultiScale]
        · simp [leaked, Event.acquires, Event.releases]
    · exact ⟨[], by simp [RawData.ToMatVec3b, hf], rfl⟩

/-- When the native library cannot load the cascade file, `NewCascadeClassifier`
returns an error after acquiring a classifier handle that it does not release. -/
theorem newCascadeClassifier_load_failure {β : Type} (nat : Native) (params : Map β)
    (s : World) (path : String) (h : List.lookup "file" params = some (.string path))
    (hload : nat.cascades path = false) :
    NewCascadeClassifier nat params s =
      (.error (.msg ("cannot load the file \x27" ++ path ++ "\x27")),
       { s with mats := s.mats + 1,
                trace := s.trace ++ [.classifierNew s.mats] ++
                  [.classifierLoad s.mats path false] }) ∧
    leaked [.classifierNew s.mats, .classifierLoad s.mats path false] = [s.mats] := by
  constructor
  · simp [NewCascadeClassifier, Map.Get, configFilePath, h, AsString,
      bridge.NewCascadeClassifier, bridge.CascadeClassifier.Load, hload]
  · simp [leaked, Event.acquires, Event.releases]

end Opencv
